import Mathlib

/-!
# Verification of the Mischwald (Forest Shuffle) scorer

Shallow embedding of `src/mischwald/scorer.ts` (forest building from detected
card boxes, declarative condition evaluation, cross-player "most" resolution,
and the public `score` entry point), together with theorems settling the
claims about it.

Modelling conventions:
* JS `number` coordinates are modelled as `ℚ`; score amounts and points as `Int`.
* JS object identity of a detected-card `Box` is modelled by the extra `idx`
  field: the source creates exactly one `Box` object per detected card, so
  reference identity coincides with the position of the card in the player's
  input list.  `Map`s keyed by objects become association lists keyed by the
  (identity-carrying) structure value.
* JS `Map.set` overwrites existing keys, so a getter on a `Map` built with
  `set` reads the *last* binding (`jsMapGet`); maps built with an explicit
  `has`-guard keep the *first* binding (`List.lookup` on `insertIfAbsent`).
* The mutable per-instance dedup field `CardInstance.set` and the per-call
  "most" cache are modelled by explicitly threaded state (`DedupSt`,
  `MostCache`).
* JS `Array.sort` (stable) is modelled by `List.mergeSort` with the boolean
  relation `comparator a b ≤ 0`.
-/

namespace Mischwald

/-- One side of an anchor ("tree") card. -/
inductive Side
  | top
  | bottom
  | left
  | right
deriving DecidableEq, Repr

/-- Axis-aligned detected-card rectangle (source `Box`).  `idx` carries the JS
object identity (position of the detected card in the player's input). -/
structure Box where
  idx : Nat
  x1 : ℚ
  y1 : ℚ
  x2 : ℚ
  y2 : ℚ
  cx : ℚ
  cy : ℚ
  w : ℚ
  h : ℚ
  clsName : String
deriving DecidableEq, Repr

/-- `score.amount` is a single number (fixed/multiplication) or an array (table). -/
inductive ScoreAmount
  | num (n : Int)
  | arr (l : List Int)
deriving DecidableEq, Repr

/-- Source `ConditionJson`; absent JSON fields are `none`. -/
structure ConditionJson where
  name : Option (List String) := none
  tags : Option (List String) := none
  type : Option String := none
  unique : Option Bool := none
  sameTree : Option Bool := none
  sameTreeSymbol : Option Bool := none
  fullTree : Option Bool := none
  most : Option Bool := none
  sameSpot : Option Bool := none
  position : Option (List String) := none
deriving DecidableEq, Repr

/-- Source `ScoreJson`. -/
structure ScoreJson where
  type : String
  amount : Option ScoreAmount := none
  min : Option Int := none
  condition : Option ConditionJson := none
deriving DecidableEq, Repr

/-- Source `JokerJson`. -/
structure JokerJson where
  type : String
deriving DecidableEq, Repr

/-- Source `CardDef`. -/
structure CardDef where
  id : String
  tags : List String
  type : Option String := none
  score : Option ScoreJson := none
  joker : Option JokerJson := none
deriving DecidableEq, Repr

/-- Source `CardsJson` (shape of the bundled cards.json). -/
structure CardsJson where
  cards : List CardDef
deriving DecidableEq, Repr

/-- Source `CardInstance`.  The mutable dedup field `set` is modelled by the
explicitly threaded `DedupSt` state, keyed by `box.idx`. -/
structure CardInstance where
  box : Box
  id : String
  treeSymbol : String
  definition : Option CardDef
deriving DecidableEq, Repr

/-- Source `Tree`: one anchor card plus four attachment lists. -/
structure Tree where
  card : CardInstance
  top : List CardInstance
  left : List CardInstance
  right : List CardInstance
  bottom : List CardInstance
deriving DecidableEq, Repr

/-- Source `Forest`. -/
structure Forest where
  trees : List Tree
deriving DecidableEq, Repr

/-- Source `Placement`: owning tree and side (`none` for the anchor itself). -/
structure Placement where
  tree : Tree
  side : Option Side
deriving DecidableEq, Repr

/-- Source `PlacementCandidate` without the `tree` field: the phase-1 loop in
`buildForest` tracks the candidate anchor by its index in `treeCards`. -/
structure PlacementCandidate where
  side : Side
  dist : ℚ
  overlap : ℚ
deriving DecidableEq, Repr

-- Constants (mirror the source, which mirrors the Kotlin original).

def ADJACENT_EPSILON : ℚ := 1e-3
def SIDE_OVERLAP_TOLERANCE : ℚ := 2e-3
def MIN_PERP_OVERLAP_RATIO : ℚ := 0.20
def MAX_SIDE_GAP_RATIO : ℚ := 0.50

-- Geometry helpers.

/-- Horizontal 1-D interval overlap, floored at 0. -/
def overlapH (a b : Box) : ℚ := max 0 (min a.x2 b.x2 - max a.x1 b.x1)

/-- Vertical 1-D interval overlap, floored at 0. -/
def overlapV (a b : Box) : ℚ := max 0 (min a.y2 b.y2 - max a.y1 b.y1)

-- Generic JS-map modelling helpers.

/-- Getter of a JS `Map` whose entries were inserted with plain `set`
(later insertions with the same key overwrite earlier ones). -/
def jsMapGet {κ ν : Type} [DecidableEq κ] (entries : List (κ × ν)) (k : κ) : Option ν :=
  (entries.reverse).lookup k

/-- `if (!map.has(k)) map.set(k, v)` on an association list. -/
def insertIfAbsent {κ ν : Type} [DecidableEq κ] (m : List (κ × ν)) (k : κ) (v : ν) :
    List (κ × ν) :=
  if (m.lookup k).isSome then m else m ++ [(k, v)]

-- Card instance parsing.

/-- The entity id of a box label: the part before the first `:` (trimmed),
or `none` when the label has no separator (`indexOf(':') < 0`). -/
def boxEntityId (b : Box) : Option String :=
  let colon := b.clsName.posOf ':'
  if colon = b.clsName.endPos then none
  else some ((b.clsName.extract 0 colon).trim)

/-- Source `parseCardInstance`: split the label at the first `:`; boxes whose
label has no separator yield no instance. -/
def parseCardInstance (box : Box) (defById : List (String × CardDef)) :
    Option CardInstance :=
  let colon := box.clsName.posOf ':'
  if colon = box.clsName.endPos then none
  else
    let id := (box.clsName.extract 0 colon).trim
    let treeSymbol := (box.clsName.extract (box.clsName.next colon) box.clsName.endPos).trim
    some { box := box, id := id, treeSymbol := treeSymbol, definition := jsMapGet defById id }

-- Forest parser.

/-- Source `bestPlacementCandidate`: evaluate all four sides of `tree` for
`card`, returning the surviving candidate with smallest gap (ties broken by
larger perpendicular overlap; earlier sides win exact ties). -/
def bestPlacementCandidate (card tree : CardInstance) : Option PlacementCandidate :=
  let sides : List Side := [.top, .left, .right, .bottom]
  sides.foldl
    (fun best side =>
      let perpOverlap :=
        if side = .top ∨ side = .bottom then overlapH card.box tree.box
        else overlapV card.box tree.box
      let minPerpSize :=
        max ADJACENT_EPSILON
          (if side = .top ∨ side = .bottom then min tree.box.w card.box.w
           else min tree.box.h card.box.h)
      if perpOverlap < minPerpSize * MIN_PERP_OVERLAP_RATIO then best
      else
        let rawDist :=
          match side with
          | .top => tree.box.y1 - card.box.y2
          | .bottom => card.box.y1 - tree.box.y2
          | .left => tree.box.x1 - card.box.x2
          | .right => card.box.x1 - tree.box.x2
        if rawDist < -SIDE_OVERLAP_TOLERANCE then best
        else
          let dist := max 0 rawDist
          let maxGap :=
            (max ADJACENT_EPSILON
              (if side = .top ∨ side = .bottom then max tree.box.h card.box.h
               else max tree.box.w card.box.w)) * MAX_SIDE_GAP_RATIO
          if dist > maxGap then best
          else
            let onCorrectSide : Bool :=
              match side with
              | .top => card.box.cy ≤ tree.box.cy
              | .bottom => card.box.cy ≥ tree.box.cy
              | .left => card.box.cx ≤ tree.box.cx
              | .right => card.box.cx ≥ tree.box.cx
            if !onCorrectSide then best
            else
              let cand : PlacementCandidate := ⟨side, dist, perpOverlap⟩
              match best with
              | none => some cand
              | some b =>
                if dist < b.dist ∨ (dist = b.dist ∧ perpOverlap > b.overlap) then some cand
                else some b)
    none

/-- Source `pickDirectlyAdjacent`: all cards directly adjacent to `anchorBox`
on `side` within `ADJACENT_EPSILON` of the minimum distance found. -/
def pickDirectlyAdjacent (anchorBox : Box) (cards : List CardInstance) (side : Side) :
    List CardInstance :=
  let candidates : List (CardInstance × ℚ) :=
    cards.filterMap (fun card =>
      let perpOverlap :=
        if side = .top ∨ side = .bottom then overlapH card.box anchorBox
        else overlapV card.box anchorBox
      let minPerpSize :=
        max ADJACENT_EPSILON
          (if side = .top ∨ side = .bottom then min anchorBox.w card.box.w
           else min anchorBox.h card.box.h)
      if perpOverlap < minPerpSize * MIN_PERP_OVERLAP_RATIO then none
      else
        let rawDist :=
          match side with
          | .top => anchorBox.y1 - card.box.y2
          | .bottom => card.box.y1 - anchorBox.y2
          | .left => anchorBox.x1 - card.box.x2
          | .right => card.box.x1 - anchorBox.x2
        if rawDist < -SIDE_OVERLAP_TOLERANCE then none
        else
          let dist := max 0 rawDist
          let onCorrectSide : Bool :=
            match side with
            | .top => card.box.y2 ≤ anchorBox.y1 + ADJACENT_EPSILON
            | .bottom => card.box.y1 ≥ anchorBox.y2 - ADJACENT_EPSILON
            | .left => card.box.x2 ≤ anchorBox.x1 + ADJACENT_EPSILON
            | .right => card.box.x1 ≥ anchorBox.x2 - ADJACENT_EPSILON
          if !onCorrectSide then none
          else
            let maxGap :=
              (max ADJACENT_EPSILON
                (if side = .top ∨ side = .bottom then max anchorBox.h card.box.h
                 else max anchorBox.w card.box.w)) * MAX_SIDE_GAP_RATIO
            if dist > maxGap then none
            else some (card, dist))
  match candidates with
  | [] => []
  | c :: cs =>
    let minDist := cs.foldl (fun m p => min m p.2) c.2
    (candidates.filter (fun p => p.2 ≤ minDist + ADJACENT_EPSILON)).map (·.1)

/-- JS `Set` insertion-ordered union: append the unseen elements of `l`. -/
def dedupAppend (acc l : List CardInstance) : List CardInstance :=
  l.foldl (fun acc c => if c ∈ acc then acc else acc ++ [c]) acc

/-- One round of the `while` loop body of `expandSideChain`: process the
collected `next` set in order; each element still in `remaining` is moved
(first occurrence spliced out) to the end of `attached`. -/
def attachRound (attached remaining next : List CardInstance) :
    List CardInstance × List CardInstance :=
  next.foldl
    (fun ar c =>
      if c ∈ ar.2 then (ar.1 ++ [c], ar.2.erase c) else ar)
    (attached, remaining)

/-- Fuel-indexed rendering of the `while (true)` loop of `expandSideChain`.
The JS `anchors` array always equals `[treeBox, ...attached.map(c => c.box)]`
(every push to `attached` is paired with a push to `anchors`), so it is
recomputed from `attached` here. -/
def expandSideChainGo (treeBox : Box) (side : Side) :
    Nat → List CardInstance → List CardInstance → List CardInstance × List CardInstance
  | 0, attached, remaining => (attached, remaining)
  | fuel + 1, attached, remaining =>
    let anchors := treeBox :: attached.map (·.box)
    let next := anchors.foldl (fun acc a => dedupAppend acc (pickDirectlyAdjacent a remaining side)) []
    if next = [] then (attached, remaining)
    else
      let ar := attachRound attached remaining next
      expandSideChainGo treeBox side fuel ar.1 ar.2

/-- Source `expandSideChain` (both arrays are mutated in place in JS; here the
updated pair is returned).  Every round that does not exit removes at least one
element from `remaining`, so `remaining.length + 1` rounds of fuel make the
fuelled loop equal to the unbounded JS loop. -/
def expandSideChain (treeBox : Box) (side : Side) (attached remaining : List CardInstance) :
    List CardInstance × List CardInstance :=
  expandSideChainGo treeBox side (remaining.length + 1) attached remaining

/-- The four per-tree side lists of the `buildForest` working state (the
source's four `Map<Box, CardInstance[]>`, keyed here by the position of the
tree in `treeCards`; JS keys the maps by the anchor `Box` object, and each
anchor instance owns exactly one box object). -/
structure SideLists where
  top : List CardInstance := []
  bottom : List CardInstance := []
  left : List CardInstance := []
  right : List CardInstance := []
deriving DecidableEq, Repr

def SideLists.get (s : SideLists) : Side → List CardInstance
  | .top => s.top
  | .bottom => s.bottom
  | .left => s.left
  | .right => s.right

def SideLists.put (s : SideLists) : Side → List CardInstance → SideLists
  | .top, l => { s with top := l }
  | .bottom, l => { s with bottom := l }
  | .left, l => { s with left := l }
  | .right, l => { s with right := l }

/-- Read the side list of the `ti`-th tree (`sideListFor`, creating an empty
list when absent). -/
def getSide (st : List SideLists) (ti : Nat) (side : Side) : List CardInstance :=
  (st.getD ti {}).get side

/-- Overwrite the side list of the `ti`-th tree. -/
def putSide (st : List SideLists) (ti : Nat) (side : Side) (l : List CardInstance) :
    List SideLists :=
  st.set ti ((st.getD ti {}).put side l)

/-- `sideListFor(best.tree, best.side).push(card)`. -/
def pushSide (st : List SideLists) (ti : Nat) (side : Side) (c : CardInstance) :
    List SideLists :=
  putSide st ti side (getSide st ti side ++ [c])

/-- Phase-1 choice for one card: the best `(treeIdx, candidate)` over all
anchors, scanning anchors in order (strict improvement required, so earlier
anchors win exact ties). -/
def phase1Choice (treeCards : List CardInstance) (card : CardInstance) :
    Option (Nat × PlacementCandidate) :=
  treeCards.enum.foldl
    (fun best p =>
      match bestPlacementCandidate card p.2 with
      | none => best
      | some cand =>
        match best with
        | none => some (p.1, cand)
        | some b =>
          if cand.dist < b.2.dist ∨ (cand.dist = b.2.dist ∧ cand.overlap > b.2.overlap) then
            some (p.1, cand)
          else some b)
    none

/-- Phase 1 of `buildForest`: direct placement of every non-anchor instance. -/
def phase1 (treeCards cardInsts : List CardInstance) (init : List SideLists) :
    List SideLists :=
  cardInsts.foldl
    (fun st card =>
      match phase1Choice treeCards card with
      | none => st
      | some (ti, cand) => pushSide st ti cand.side card)
    init

/-- All instances placed in some side list of the working state. -/
def stFlat (st : List SideLists) : List CardInstance :=
  (st.map (fun sl => sl.top ++ sl.bottom ++ sl.left ++ sl.right)).flatten

/-- Phase 2 of `buildForest`: chain expansion, tree by tree, sides in source
order (top, bottom, left, right), sharing one `remaining` pool. -/
def phase2 (treeCards : List CardInstance) (st : List SideLists)
    (remaining : List CardInstance) : List SideLists × List CardInstance :=
  treeCards.enum.foldl
    (fun p tc =>
      let (st, rem) := p
      let (ti, treeCard) := tc
      let r1 := expandSideChain treeCard.box .top (getSide st ti .top) rem
      let st1 := putSide st ti .top r1.1
      let r2 := expandSideChain treeCard.box .bottom (getSide st1 ti .bottom) r1.2
      let st2 := putSide st1 ti .bottom r2.1
      let r3 := expandSideChain treeCard.box .left (getSide st2 ti .left) r2.2
      let st3 := putSide st2 ti .left r3.1
      let r4 := expandSideChain treeCard.box .right (getSide st3 ti .right) r3.2
      let st4 := putSide st3 ti .right r4.1
      (st4, r4.2))
    (st, remaining)

/-- Source `buildForest`. -/
def buildForest (boxes : List Box) (cards : CardsJson) : Forest :=
  let defById := cards.cards.map (fun c => (c.id, c))
  let treeIds := (cards.cards.filter (fun c => c.tags.contains "Tree")).map (·.id)
  let treeBoxes := boxes.filter (fun b =>
    match boxEntityId b with
    | some i => treeIds.contains i
    | none => false)
  let otherBoxes := boxes.filter (fun b =>
    match boxEntityId b with
    | some i => !(treeIds.contains i)
    | none => true)
  let treeCards := treeBoxes.filterMap (fun b => parseCardInstance b defById)
  let cardInsts := otherBoxes.filterMap (fun b => parseCardInstance b defById)
  let init : List SideLists := treeCards.map (fun _ => {})
  let placed := phase1 treeCards cardInsts init
  let directlyPlaced := stFlat placed
  let remaining := cardInsts.filter (fun c => c ∉ directlyPlaced)
  let expanded := phase2 treeCards placed remaining
  let trees : List Tree := treeCards.enum.map (fun p =>
    let sl := (expanded.1).getD p.1 {}
    { card := p.2, top := sl.top, left := sl.left, right := sl.right, bottom := sl.bottom })
  ⟨trees⟩

-- Forest utilities.

/-- Source `allCardInstances`: every instance reachable from some tree, in
traversal order, deduplicated by identity.  Instances attached to no tree are
*not* produced by this function (the `Forest` value does not record them). -/
def allCardInstances (forest : Forest) : List CardInstance :=
  forest.trees.foldl
    (fun acc tree =>
      dedupAppend acc ([tree.card] ++ tree.top ++ tree.left ++ tree.right ++ tree.bottom))
    []

/-- Source `buildPlacementsByBox` (first binding wins: the source guards each
`set` with `has`). -/
def buildPlacementsByBox (forest : Forest) : List (Box × Placement) :=
  forest.trees.foldl
    (fun m tree =>
      let m := insertIfAbsent m tree.card.box ⟨tree, none⟩
      let m := tree.top.foldl (fun m c => insertIfAbsent m c.box ⟨tree, some .top⟩) m
      let m := tree.bottom.foldl (fun m c => insertIfAbsent m c.box ⟨tree, some .bottom⟩) m
      let m := tree.left.foldl (fun m c => insertIfAbsent m c.box ⟨tree, some .left⟩) m
      tree.right.foldl (fun m c => insertIfAbsent m c.box ⟨tree, some .right⟩) m)
    []

/-- The comparator of `sortTreesVisually` (row-then-column reading order). -/
def treeReadingCmp (thresh : ℚ) (a b : Tree) : ℚ :=
  if |a.card.box.y1 - b.card.box.y1| < thresh then a.card.box.x1 - b.card.box.x1
  else a.card.box.y1 - b.card.box.y1

/-- Source `sortTreesVisually` (stable JS sort, modelled by `mergeSort`). -/
def sortTreesVisually (trees : List Tree) : List Tree :=
  if trees.length = 0 then trees
  else
    let avgH := (trees.foldl (fun s t => s + t.card.box.h) 0) / (trees.length : ℚ)
    let thresh := max (avgH / 2) ADJACENT_EPSILON
    trees.mergeSort (fun a b => decide (treeReadingCmp thresh a b ≤ 0))

/-- Source `buildBoxToTreeIndex` (plain `Map.set`: later bindings win — read
with `jsMapGet`). -/
def buildBoxToTreeIndex (forest : Forest) : List (Box × Nat) :=
  (sortTreesVisually forest.trees).enum.foldl
    (fun m p =>
      let (idx, tree) := p
      let m := m ++ [(tree.card.box, idx)]
      (tree.top ++ tree.left ++ tree.right ++ tree.bottom).foldl
        (fun m c => m ++ [(c.box, idx)]) m)
    []

/-- The per-side comparator of `sortAttached` inside `sortCardsInUiOrder`. -/
def uiSideCmp (side : Side) (a b : CardInstance) : ℚ :=
  match side with
  | .top => if b.box.y2 ≠ a.box.y2 then b.box.y2 - a.box.y2 else a.box.cx - b.box.cx
  | .bottom => if a.box.y1 ≠ b.box.y1 then a.box.y1 - b.box.y1 else a.box.cx - b.box.cx
  | .left => if b.box.x2 ≠ a.box.x2 then b.box.x2 - a.box.x2 else a.box.cy - b.box.cy
  | .right => if a.box.x1 ≠ b.box.x1 then a.box.x1 - b.box.x1 else a.box.cy - b.box.cy

/-- `sortAttached` of `sortCardsInUiOrder`: stable sort per side, then a
geometric re-check that the card truly lies on that side of the anchor. -/
def sortAttached (tree : Tree) (sideCards : List CardInstance) (side : Side) :
    List CardInstance :=
  let treeBox := tree.card.box
  let result := sideCards.mergeSort (fun a b => decide (uiSideCmp side a b ≤ 0))
  result.filter (fun c =>
    match side with
    | .top => decide (c.box.y2 ≤ treeBox.y1 + 1e-3)
    | .bottom => decide (c.box.y1 ≥ treeBox.y2 - 1e-3)
    | .left => decide (c.box.x2 ≤ treeBox.x1 + 1e-3)
    | .right => decide (c.box.x1 ≥ treeBox.x2 - 1e-3))

/-- Source `sortCardsInUiOrder`.  State is `(sorted, seen)`.  NOTE the anchor
push mirrors the source bug-for-bug: `if (seen.add(box))` tests the returned
`Set` object, which is always truthy, so the anchor box is pushed
unconditionally. -/
def sortCardsInUiOrder (forest : Forest) : List Box :=
  let pushUnseen := fun (p : List Box × List Box) (b : Box) =>
    if b ∈ p.2 then p else (p.1 ++ [b], b :: p.2)
  let step := fun (p : List Box × List Box) (tree : Tree) =>
    let p := (p.1 ++ [tree.card.box], if tree.card.box ∈ p.2 then p.2 else tree.card.box :: p.2)
    let p := (sortAttached tree tree.top .top).foldl (fun p c => pushUnseen p c.box) p
    let p := (sortAttached tree tree.left .left).foldl (fun p c => pushUnseen p c.box) p
    let p := (sortAttached tree tree.right .right).foldl (fun p c => pushUnseen p c.box) p
    (sortAttached tree tree.bottom .bottom).foldl (fun p c => pushUnseen p c.box) p
  let p0 := (sortTreesVisually forest.trees).foldl step ([], [])
  -- "Unattached cards at the end": cards present in a tree's lists but skipped
  -- by the geometric re-check above (iterates the unsorted tree list).
  let pfin := forest.trees.foldl
    (fun p tree =>
      ([tree.card.box] ++ tree.top.map (·.box) ++ tree.left.map (·.box)
        ++ tree.right.map (·.box) ++ tree.bottom.map (·.box)).foldl pushUnseen p)
    p0
  pfin.1

-- Scoring logic.

/-- Source `isFullTree`: all four side lists non-empty. -/
def isFullTree (tree : Tree) : Bool :=
  !tree.top.isEmpty && !tree.left.isEmpty && !tree.bottom.isEmpty && !tree.right.isEmpty

/-- Source `matchesAnyTag`. -/
def matchesAnyTag (inst : CardInstance) (tags : List String) : Bool :=
  let cardTags := (inst.definition.map (·.tags)).getD []
  tags.any (fun t => cardTags.contains t)

/-- `inst.definition?.joker?.type`. -/
def jokerTypeOf (inst : CardInstance) : Option String :=
  (inst.definition.bind (·.joker)).map (·.type)

/-- `inst.definition?.type`. -/
def defTypeOf (inst : CardInstance) : Option String :=
  inst.definition.bind (·.type)

/-- Source `filterCards`: the §4.4 pool filter, including the joker-type
short-circuit. -/
def filterCards (self : CardInstance) (candidates : List CardInstance)
    (cond : ConditionJson) : List CardInstance :=
  let ids := cond.name
  let tags := cond.tags
  let type := cond.type
  let treeSymbol : Option String :=
    if cond.sameTreeSymbol = some true then some self.treeSymbol else none
  candidates.filter (fun inst =>
    if (match type with
        | some t => jokerTypeOf inst == some t
        | none => false) then
      true
    else
      let idOk := match ids with
        | some l => l.contains inst.id
        | none => true
      let tagsOk := match tags with
        | some l => matchesAnyTag inst l
        | none => true
      let typeOk := match type with
        | some t => defTypeOf inst == some t
        | none => true
      let symOk := match treeSymbol with
        | some s => s == inst.treeSymbol
        | none => true
      idOk && tagsOk && typeOk && symOk)

/-- The per-call cross-player "most" cache (`mostWinnerCache`): key string to
(max count, winner player indices as produced by the source's map/filter). -/
abbrev MostCache := List (String × (Nat × List Int))

/-- Source `MostResolver`, with the cache it mutates threaded explicitly. -/
abbrev MostResolver := MostCache → CardInstance → ConditionJson → Bool × MostCache

/-- The shared table-dedup state: the `Set<string>` objects created by the
table-dedup block of `countMatches` (arena, in creation order; each set as its
insertion-ordered element list) and the per-instance `set` field (`assign`,
keyed by `box.idx`; later writes overwrite, so it is read with `jsMapGet`). -/
structure DedupSt where
  arena : List (List String) := []
  assign : List (Nat × Nat) := []
deriving DecidableEq, Repr

def Tree.sideGet (tree : Tree) : Side → List CardInstance
  | .top => tree.top
  | .bottom => tree.bottom
  | .left => tree.left
  | .right => tree.right

/-- Distinct-count of a string list (`new Set(l).size`). -/
def distinctCount (l : List String) : Nat := l.dedup.length

/-- Source `countMatches`, with the "most" cache and the table-dedup state
threaded explicitly. -/
def countMatches (self : CardInstance) (cond : ConditionJson) (all : List CardInstance)
    (placementsByBox : List (Box × Placement)) (assumeMost : Bool)
    (mostResolver : Option MostResolver) (cache : MostCache) (ded : DedupSt) :
    Nat × MostCache × DedupSt :=
  let gate : Bool × MostCache :=
    if cond.most = some true then
      match mostResolver with
      | some r => r cache self cond
      | none => (assumeMost, cache)
    else (true, cache)
  if gate.1 = false then (0, gate.2, ded)
  else
    let cache := gate.2
    let placement := placementsByBox.lookup self.box
    if cond.fullTree = some true then
      ((match placement with
        | some pl => if isFullTree pl.tree then 1 else 0
        | none => 0), cache, ded)
    else
      let poolOpt : Option (List CardInstance) :=
        if cond.sameTree = some true then
          match placement with
          | none => none
          | some pl =>
            let treeCards := pl.tree.top ++ pl.tree.bottom ++ pl.tree.left ++ pl.tree.right
            some (if self = pl.tree.card then treeCards else pl.tree.card :: treeCards)
        else if cond.sameSpot = some true then
          match placement with
          | none => none
          | some pl =>
            match pl.side with
            | none => none
            | some s => some (pl.tree.sideGet s)
        else if (cond.position.getD []).contains "below" then
          some (all.filter (fun o =>
            decide (o.box.y1 ≥ self.box.y2) && decide (overlapH o.box self.box > 0)))
        else some all
      match poolOpt with
      | none => (0, cache, ded)
      | some pool =>
        let matching := filterCards self pool cond
        if cond.unique = some true ∧
            ((self.definition.bind (·.score)).map (·.type)) = some "table" then
          -- Table dedup: shared sets across instances, lazily built the first
          -- time an unassigned instance is scored.
          match jsMapGet ded.assign self.box.idx with
          | some sid => ((ded.arena.getD sid []).length, cache, ded)
          | none =>
            let s0 := ded.arena.length
            let ded1 : DedupSt :=
              { arena := ded.arena ++ [[]], assign := ded.assign ++ [(self.box.idx, s0)] }
            let final := matching.foldl
              (fun (p : DedupSt × List Nat) item =>
                let (d, sets) := p
                match sets.find? (fun sid => !((d.arena.getD sid []).contains item.id)) with
                | some sid =>
                  ({ arena := d.arena.set sid ((d.arena.getD sid []) ++ [item.id]),
                     assign := d.assign ++ [(item.box.idx, sid)] }, sets)
                | none =>
                  let sid := d.arena.length
                  ({ arena := d.arena ++ [[item.id]],
                     assign := d.assign ++ [(item.box.idx, sid)] }, sets ++ [sid]))
              (ded1, [s0])
            let ded2 := final.1
            (((ded2.arena.getD ((jsMapGet ded2.assign self.box.idx).getD s0) []).length),
              cache, ded2)
        else if cond.unique = some true then
          (distinctCount
            ((matching.filter (fun m => (m.definition.bind (·.joker)) = none)).map (·.id)),
            cache, ded)
        else (matching.length, cache, ded)

/-- Source `scoreTableIndex`: clamp `count - 1` into the table bounds. -/
def scoreTableIndex (points : List Int) (count : Nat) : Int :=
  if points.length = 0 then 0
  else points.getD (Int.toNat (max 0 (min ((points.length : Int) - 1) ((count : Int) - 1)))) 0

def pointsWord (n : Int) : String := if n = 1 then "Punkt" else "Punkte"

def describeTarget (cond : ConditionJson) : String :=
  let ids := (cond.name.getD []).filter (fun s => s ≠ "")
  let tags := (cond.tags.getD []).filter (fun s => s ≠ "")
  if ids.length > 0 then String.intercalate "/" ids
  else if tags.length > 0 then String.intercalate " oder " tags
  else "Karten"

def describeScope (cond : ConditionJson) : String :=
  if cond.sameTree = some true then "im selben Baum" else ""

def describeExtras (cond : ConditionJson) : String :=
  let parts : List String := []
  let parts := if cond.unique = some true then parts ++ ["einzigartig"] else parts
  let parts := if cond.sameTreeSymbol = some true then parts ++ ["gleiches Baum-Symbol"] else parts
  let parts := if cond.fullTree = some true then parts ++ ["voller Baum"] else parts
  let parts := if cond.sameSpot = some true then parts ++ ["gleicher Platz"] else parts
  let parts := if cond.most = some true then parts ++ ["meiste"] else parts
  let parts :=
    if (cond.position.getD []) ≠ [] then parts ++ [String.intercalate "/" (cond.position.getD [])]
    else parts
  String.intercalate ", " parts

/-- Source `scoreInstanceWithReason` (parameter `instance` renamed to `inst`:
`instance` is a Lean keyword). -/
def scoreInstanceWithReason (inst : CardInstance) (all : List CardInstance)
    (placementsByBox : List (Box × Placement)) (assumeMost : Bool)
    (mostResolver : Option MostResolver) (cache : MostCache) (ded : DedupSt) :
    (Int × String) × MostCache × DedupSt :=
  match inst.definition.bind (·.score) with
  | none => ((0, "kein Effekt"), cache, ded)
  | some scoreRule =>
    let cond := scoreRule.condition
    let type := scoreRule.type.toLower
    if type = "fixed" then
      let amount : Int :=
        match scoreRule.amount with
        | some (.num n) => n
        | some (.arr _) => 0
        | none => 0
      match cond with
      | none => ((amount, toString amount ++ " feste " ++ pointsWord amount), cache, ded)
      | some c =>
        let r := countMatches inst c all placementsByBox assumeMost mostResolver cache ded
        let matchCount := r.1
        let satisfied : Bool :=
          match scoreRule.min with
          | some m => decide ((matchCount : Int) ≥ m)
          | none => decide (matchCount > 0)
        let minText :=
          match scoreRule.min with
          | some m => "mind. " ++ toString m
          | none => "mind. 1"
        let extra := describeExtras c
        let extraStr := if extra ≠ "" then " (" ++ extra ++ ")" else ""
        let scopeStr := if describeScope c ≠ "" then " " ++ describeScope c else ""
        let target := describeTarget c
        if satisfied then
          ((amount,
            toString amount ++ " feste " ++ pointsWord amount ++ " (" ++ toString matchCount ++
              " Treffer, " ++ minText ++ " " ++ target ++ scopeStr ++ extraStr ++ ")"),
            r.2.1, r.2.2)
        else
          ((0,
            "0 " ++ pointsWord 0 ++ " (Bedingung nicht erfüllt: " ++ toString matchCount ++
              " Treffer, " ++ minText ++ " " ++ target ++ scopeStr ++ extraStr ++ ")"),
            r.2.1, r.2.2)
    else if type = "multiplication" then
      let amount : Int :=
        match scoreRule.amount with
        | some (.num n) => n
        | some (.arr _) => 0
        | none => 0
      match cond with
      | none => ((0, "0 (keine Bedingung)"), cache, ded)
      | some c =>
        let r := countMatches inst c all placementsByBox assumeMost mostResolver cache ded
        let matchCount := r.1
        let effectiveMatches : Nat :=
          match scoreRule.min with
          | some m => if (matchCount : Int) < m then 0 else matchCount
          | none => matchCount
        let pts := amount * (effectiveMatches : Int)
        let minText :=
          match scoreRule.min with
          | some m => "mind. " ++ toString m
          | none => ""
        let extra := describeExtras c
        let extraStr := if extra ≠ "" then " (" ++ extra ++ ")" else ""
        let scopeStr := describeScope c
        let perText := toString amount ++ " " ++ pointsWord amount ++ " pro " ++ describeTarget c
        let detailsParts := [minText, scopeStr].filter (fun s => s ≠ "")
        let detailsStr :=
          if detailsParts.length > 0 then " (" ++ String.intercalate ", " detailsParts ++ ")"
          else ""
        ((pts, perText ++ " · " ++ toString effectiveMatches ++ detailsStr ++ extraStr),
          r.2.1, r.2.2)
    else if type = "table" then
      let arr : List Int :=
        match scoreRule.amount with
        | some (.arr l) => l
        | _ => []
      match cond with
      | none => ((0, "0 (keine Bedingung)"), cache, ded)
      | some c =>
        let r := countMatches inst c all placementsByBox assumeMost mostResolver cache ded
        let matchCount := r.1
        let pts := scoreTableIndex arr matchCount
        let extra := describeExtras c
        let extraStr := if extra ≠ "" then " (" ++ extra ++ ")" else ""
        let scopeStr := if describeScope c ≠ "" then " " ++ describeScope c else ""
        ((pts,
          "Tabelle: " ++ toString matchCount ++ " Treffer (" ++ describeTarget c ++ scopeStr ++
            extraStr ++ ")"), r.2.1, r.2.2)
    else ((0, "kein Effekt"), cache, ded)

-- Cross-player "most" resolver.

/-- Source `MostKey`. -/
structure MostKey where
  ids : String
  tags : String
  unique : Bool
  treeSymbol : Option String
deriving DecidableEq, Repr

/-- JS `Array.join(',')`. -/
def joinComma : List String → String
  | [] => ""
  | [s] => s
  | s :: rest => s ++ "," ++ joinComma rest

/-- Helper of `splitComma`: `acc` is the reversed current chunk. -/
def splitCommaAux : List Char → List Char → List String
  | [], acc => [String.mk acc.reverse]
  | c :: cs, acc =>
    if c = ',' then String.mk acc.reverse :: splitCommaAux cs []
    else splitCommaAux cs (c :: acc)

/-- JS `String.split(',')`. -/
def splitComma (s : String) : List String := splitCommaAux s.data []

/-- Source `makeMostKey`.  JS default `sort()` compares strings; modelled by
`mergeSort` on the string order. -/
def makeMostKey (self : CardInstance) (cond : ConditionJson) : MostKey :=
  let ids := joinComma
    (((cond.name.getD []).filter (fun s => s ≠ "")).mergeSort (fun a b => decide (a ≤ b)))
  let tags := joinComma
    (((cond.tags.getD []).filter (fun s => s ≠ "")).mergeSort (fun a b => decide (a ≤ b)))
  { ids := ids, tags := tags, unique := cond.unique = some true,
    treeSymbol := if cond.sameTreeSymbol = some true then some self.treeSymbol else none }

/-- Source `mostKeyStr`. -/
def mostKeyStr (k : MostKey) : String :=
  k.ids ++ "|" ++ k.tags ++ "|" ++ (if k.unique then "true" else "false") ++ "|" ++
    k.treeSymbol.getD ""

/-- Source `countForMostKey`: the cross-player resolver's own pool filter
(NOTE: unlike `filterCards` it has no joker-type short-circuit). -/
def countForMostKey (key : MostKey) (cards : List CardInstance) (cond : ConditionJson) :
    Nat :=
  let filtered := cards.filter (fun inst =>
    let symOk := match key.treeSymbol with
      | some s => inst.treeSymbol == s
      | none => true
    let idOk := if key.ids = "" then true else (splitComma key.ids).contains inst.id
    let tagsOk :=
      if key.tags = "" then true
      else (splitComma key.tags).any (fun t =>
        match inst.definition with
        | some d => d.tags.contains t
        | none => false)
    let typeOk := match cond.type with
      | some t => defTypeOf inst == some t
      | none => true
    symOk && idOk && tagsOk && typeOk)
  if key.unique then
    distinctCount ((filtered.filter (fun m => (m.definition.bind (·.joker)) = none)).map (·.id))
  else filtered.length

-- Public score function.

/-- Source `DetectedCard` (scorer-api). -/
structure DetectedCard where
  cardId : String
  similarity : ℚ
  x1 : ℚ
  y1 : ℚ
  x2 : ℚ
  y2 : ℚ
  cx : ℚ
  cy : ℚ
  w : ℚ
  h : ℚ
deriving DecidableEq, Repr, Inhabited

/-- Source `PlayerInput`. -/
structure PlayerInput where
  name : String
  cards : List DetectedCard
deriving DecidableEq, Repr, Inhabited

/-- Source `CardScoreDetail` (the scorer always sets `title`). -/
structure CardScoreDetail where
  cardId : String
  points : Int
  reason : String
  title : String
  group : Option String
deriving DecidableEq, Repr, Inhabited

/-- Source `PlayerScoreResult`. -/
structure PlayerScoreResult where
  name : String
  totalScore : Int
  cardDetails : List CardScoreDetail
deriving DecidableEq, Repr, Inhabited

/-- Source `PreparedPlayer` (phase 1 of `score`). -/
structure PreparedPlayer where
  forest : Option Forest
  all : List CardInstance
deriving DecidableEq, Repr, Inhabited

/-- Phase 1 of `score` for one player: convert `DetectedCard`s to `Box`es and
build the forest.  The `idx` of each box is the card's position in the
player's input list (its JS object identity). -/
def prepare (cards : CardsJson) (p : PlayerInput) : PreparedPlayer :=
  if p.cards.length = 0 then ⟨none, []⟩
  else
    let boxes : List Box := p.cards.enum.map (fun q =>
      let (i, dc) := q
      { idx := i, x1 := dc.x1, y1 := dc.y1, x2 := dc.x2, y2 := dc.y2,
        cx := dc.cx, cy := dc.cy, w := dc.w, h := dc.h, clsName := dc.cardId })
    let forest := buildForest boxes cards
    ⟨some forest, allCardInstances forest⟩

/-- The uncached body of `getMostWinners`: per-player counts, the floored
maximum, and the winner index list (`counts.map((c, i) => c === max ? i : -1)
.filter(i => i >= 0)`, empty when the maximum is `<= 0`). -/
def mostWinners (prepared : List PreparedPlayer) (key : MostKey) (cond : ConditionJson) :
    Nat × List Int :=
  let counts := prepared.map (fun p => countForMostKey key p.all cond)
  let maxC := counts.foldl max 0
  let winners : List Int :=
    if maxC ≤ 0 then []
    else (counts.enum.map (fun p => if p.2 = maxC then (p.1 : Int) else -1)).filter
      (fun i => decide (0 ≤ i))
  (maxC, winners)

/-- Source `getMostWinners`: memoized per key string in the per-call cache.
(The write-only `condByKeyStr` map of the source is omitted: it is never
read.) -/
def getMostWinners (prepared : List PreparedPlayer) (cache : MostCache) (key : MostKey)
    (cond : ConditionJson) : (Nat × List Int) × MostCache :=
  let ks := mostKeyStr key
  match jsMapGet cache ks with
  | some v => (v, cache)
  | none =>
    let v := mostWinners prepared key cond
    (v, cache ++ [(ks, v)])

/-- Phase 3 of `score` for one player (the body of the `prepared.map`
callback), threading the per-call "most" cache. -/
def scoreOnePlayer (prepared : List PreparedPlayer) (playerIndex : Nat)
    (playerName : String) (p : PreparedPlayer) (cache : MostCache) :
    PlayerScoreResult × MostCache :=
  match p.forest with
  | none => (⟨playerName, 0, []⟩, cache)
  | some forest =>
    if p.all.length = 0 then (⟨playerName, 0, []⟩, cache)
    else
      let mostResolver : MostResolver := fun cache self cond =>
        if cond.most ≠ some true then (true, cache)
        else
          let key := makeMostKey self cond
          let r := getMostWinners prepared cache key cond
          ((r.1.2).contains (playerIndex : Int), r.2)
      let placementsByBox := buildPlacementsByBox forest
      let all := p.all
      -- Score all instances first (threading cache and the shared dedup state;
      -- instances — hence the dedup state — are created fresh per call).
      let scored := all.foldl
        (fun (acc : List (Box × (Int × String)) × MostCache × DedupSt) inst =>
          let r := scoreInstanceWithReason inst all placementsByBox false
            (some mostResolver) acc.2.1 acc.2.2
          (acc.1 ++ [(inst.box, r.1)], r.2.1, r.2.2))
        ([], cache, {})
      let scoreByBox := scored.1
      let cache := scored.2.1
      let sortedBoxes := sortCardsInUiOrder forest
      let instByBox := all.map (fun c => (c.box, c))
      let boxToTreeIdx := buildBoxToTreeIndex forest
      let cardDetails := sortedBoxes.foldl
        (fun (details : List CardScoreDetail) box =>
          match jsMapGet instByBox box with
          | none => details
          | some inst =>
            let pr := (jsMapGet scoreByBox box).getD (0, "")
            let group := (jsMapGet boxToTreeIdx box).map
              (fun treeIdx => "Baum " ++ toString (treeIdx + 1))
            details ++ [{ cardId := inst.box.clsName, points := pr.1, reason := pr.2,
                          title := inst.id, group := group }])
        []
      let totalScore := cardDetails.foldl (fun s d => s + d.points) 0
      (⟨playerName, totalScore, cardDetails⟩, cache)

/-- Phase 3 of `score`: score every prepared player in input order (`.map`
with the per-call cache mutated inside the callback, rendered as sequential
recursion). -/
def scorePlayersGo (prepared : List PreparedPlayer) (players : List PlayerInput) :
    Nat → List PreparedPlayer → MostCache → List PlayerScoreResult × MostCache
  | _, [], cache => ([], cache)
  | playerIndex, p :: rest, cache =>
    let playerName := (players.getD playerIndex ⟨"", []⟩).name
    let r := scoreOnePlayer prepared playerIndex playerName p cache
    let rs := scorePlayersGo prepared players (playerIndex + 1) rest r.2
    (r.1 :: rs.1, rs.2)

/-- Source `score`, with the bundled `CARDS_JSON` (loaded from the pack's
cards.json, which is outside this core's sources) passed explicitly. -/
def score (cards : CardsJson) (players : List PlayerInput) : List PlayerScoreResult :=
  let prepared := players.map (prepare cards)
  (scorePlayersGo prepared players 0 prepared []).1

/-- The module-level state of the scorer: the only module-scoped binding is
the immutable `CARDS_JSON`; both the "most" cache and the instance dedup sets
are created inside each `score` call. -/
structure ModuleState where
  cardsJson : CardsJson
deriving DecidableEq, Repr

/-- One invocation of the exported `score` against the module state; the
state after the call is returned (the source writes no module-level binding). -/
def scoreCall (st : ModuleState) (players : List PlayerInput) :
    List PlayerScoreResult × ModuleState :=
  (score st.cardsJson players, st)

-- ---------------------------------------------------------------------------
-- Concrete fixtures used by the claim theorems.
-- ---------------------------------------------------------------------------

/-- Build a `DetectedCard` from its label and corners (derived centre/size,
as the repository's own test helper does). -/
def mkDC (cid : String) (x1 y1 x2 y2 : ℚ) : DetectedCard :=
  { cardId := cid, similarity := 1, x1 := x1, y1 := y1, x2 := x2, y2 := y2,
    cx := (x1 + x2) / 2, cy := (y1 + y2) / 2, w := x2 - x1, h := y2 - y1 }

/-- A unit box with a given identity and label (geometry irrelevant). -/
def boxAt (i : Nat) (cid : String) : Box :=
  { idx := i, x1 := 0, y1 := 0, x2 := 1, y2 := 1, cx := 1/2, cy := 1/2, w := 1, h := 1,
    clsName := cid }

/-- Configuration with two anchor ("Tree"-tagged) definitions and no others. -/
def cfgB : CardsJson := ⟨[{ id := "oak", tags := ["Tree"] }, { id := "birch", tags := ["Tree"] }]⟩

/-- Scenario B layout: two anchors left-to-right, each with one directly
adjacent attachment to its right. -/
def playersB : List PlayerInput :=
  [{ name := "Alice",
     cards := [mkDC "oak:oak" 0.1 0.4 0.3 0.7,
               mkDC "wolf:oak" 0.31 0.4 0.5 0.7,
               mkDC "birch:birch" 0.6 0.4 0.8 0.7,
               mkDC "wolf:birch" 0.81 0.4 0.99 0.7] }]

/-- Scenario A input: a single isolated card whose entity id is absent from
the configuration. -/
def playerA : PlayerInput := { name := "Alice", cards := [mkDC "ghost:oak" 0.1 0.1 0.3 0.4] }

/-- The box `prepare` builds for Scenario A's single card. -/
def ghostBox : Box :=
  { idx := 0, x1 := 0.1, y1 := 0.1, x2 := 0.3, y2 := 0.4, cx := 0.2, cy := 0.25,
    w := 0.2, h := 0.3, clsName := "ghost:oak" }

/-- Scenario C: a `fixed` rule requiring at least 8 unique tag-"T" matches. -/
def condC5 : ConditionJson := { tags := some ["T"], unique := some true }

def ruleC5 : ScoreJson :=
  { type := "fixed", amount := some (.num 5), min := some 8, condition := some condC5 }

def defC5 : CardDef := { id := "c5self", tags := [], score := some ruleC5 }

def instC5 : CardInstance :=
  { box := boxAt 0 "c5self:oak", id := "c5self", treeSymbol := "oak", definition := some defC5 }

/-- The single qualifying instance of Scenario C (tagged "T"). -/
def cardT : CardDef := { id := "t1", tags := ["T"] }

def instT : CardInstance :=
  { box := boxAt 1 "t1:oak", id := "t1", treeSymbol := "oak", definition := some cardT }

-- ---------------------------------------------------------------------------
-- C9
-- ---------------------------------------------------------------------------

/-- C9: re-running `score()` on the same player collection produces identical
output; the scorer writes no module-level state (the "most" cache and the
table-dedup sets are created inside each invocation — see `scoreOnePlayer` and
`countMatches`), so a second call starting from the state left by the first
returns the same results. -/
theorem c9_score_deterministic_across_calls :
    ∀ (st : ModuleState) (players : List PlayerInput),
      (scoreCall st players).2 = st ∧
      (scoreCall (scoreCall st players).2 players).1 = (scoreCall st players).1 :=
  fun _ _ => ⟨rfl, rfl⟩

-- ---------------------------------------------------------------------------
-- C1
-- ---------------------------------------------------------------------------

/-- C1 (refuting evaluation): Scenario A's detected card has a separator and
parses to a `CardInstance`, yet `score` returns an empty `cardDetails` list
for its player — the isolated card is dropped from the output entirely
(`allCardInstances` only reaches instances attached to a tree), instead of
appearing with points 0 and reason "kein Effekt" as the claim states. -/
theorem c1_isolated_card_dropped :
    parseCardInstance ghostBox [] ≠ none ∧
    score ⟨[]⟩ [playerA] = [{ name := "Alice", totalScore := 0, cardDetails := [] }] := by
  constructor
  · with_unfolding_all decide
  · with_unfolding_all decide

-- ---------------------------------------------------------------------------
-- C4
-- ---------------------------------------------------------------------------

/-- C4: in Scenario B's layout (two anchors left-to-right, each with one
directly adjacent attachment to its right) both attachments receive the
non-absent group label of their own anchor's 1-based reading-order index —
"Baum 1" for the left anchor's attachment and "Baum 2" for the right one
(the spec's "Structure N" is the source's German "Baum N"). -/
theorem c4_two_trees_reading_order_groups :
    (score cfgB playersB).map (fun r => r.cardDetails.map (fun d => (d.cardId, d.group))) =
      [[("oak:oak", some "Baum 1"), ("wolf:oak", some "Baum 1"),
        ("birch:birch", some "Baum 2"), ("wolf:birch", some "Baum 2")]] := by
  with_unfolding_all decide

-- ---------------------------------------------------------------------------
-- C5
-- ---------------------------------------------------------------------------

/-- The not-satisfied branch of the fixed rule starts with the literal
"Bedingung nicht erfüllt" prefix. -/
theorem fixedFailReasonEq (x : String) :
    "0 " ++ pointsWord 0 ++ " (Bedingung nicht erfüllt: " ++ x =
      "0 Punkte (Bedingung nicht erfüllt: " ++ x := rfl

/-- C5: for a `fixed` score rule with scalar amount: with no condition the
awarded points always equal `amount`; with a condition the points equal
`amount` exactly when the match count is at least `min` (defaulting to 1 when
absent) and 0 otherwise, and an unmet condition yields an explanation starting
"0 Punkte (Bedingung nicht erfüllt: ". -/
theorem c5_fixed_rule_points (inst : CardInstance) (all : List CardInstance)
    (pb : List (Box × Placement)) (am : Bool) (mr : Option MostResolver)
    (cache : MostCache) (ded : DedupSt) (d : CardDef) (r : ScoreJson) (a : Int)
    (hdef : inst.definition = some d) (hscore : d.score = some r)
    (htype : r.type.toLower = "fixed") (hamount : r.amount = some (.num a)) :
    (r.condition = none → (scoreInstanceWithReason inst all pb am mr cache ded).1.1 = a) ∧
    (∀ c, r.condition = some c →
      ((scoreInstanceWithReason inst all pb am mr cache ded).1.1 =
        if ((countMatches inst c all pb am mr cache ded).1 : Int) ≥ r.min.getD 1 then a
        else 0) ∧
      (((countMatches inst c all pb am mr cache ded).1 : Int) < r.min.getD 1 →
        ∃ s, (scoreInstanceWithReason inst all pb am mr cache ded).1.2 =
          "0 Punkte (Bedingung nicht erfüllt: " ++ s)) := by
  have hbind : inst.definition.bind (·.score) = some r := by rw [hdef]; exact hscore
  constructor
  · intro hcond
    simp [scoreInstanceWithReason, hbind, htype, hcond, hamount]
  · intro c hcond
    rcases hmin : r.min with _ | m
    · constructor
      · rcases Nat.eq_zero_or_pos (countMatches inst c all pb am mr cache ded).1 with h0 | h0
        · simp [scoreInstanceWithReason, hbind, htype, hcond, hamount, hmin, h0]
        · simp [scoreInstanceWithReason, hbind, htype, hcond, hamount, hmin,
            Nat.pos_iff_ne_zero.mp h0]
          have h1 : 1 ≤ (countMatches inst c all pb am mr cache ded).1 := h0
          simp [h1]
          rw [if_pos h0]
      · intro hlt
        have h0 : (countMatches inst c all pb am mr cache ded).1 = 0 := by
          simp only [hmin, Option.getD_none] at hlt
          omega
        exact ⟨_, by
          simp only [scoreInstanceWithReason, hbind, htype, hcond, hamount, hmin, h0]
          norm_num
          rw [fixedFailReasonEq]
          simp only [String.append_assoc]
          rfl⟩
    · constructor
      · by_cases hge : ((countMatches inst c all pb am mr cache ded).1 : Int) ≥ m
        · simp [scoreInstanceWithReason, hbind, htype, hcond, hamount, hmin, hge]
        · simp [scoreInstanceWithReason, hbind, htype, hcond, hamount, hmin, hge]
      · intro hlt
        simp only [hmin, Option.getD_some] at hlt
        have hge : ¬ ((countMatches inst c all pb am mr cache ded).1 : Int) ≥ m := by omega
        exact ⟨_, by
          simp only [scoreInstanceWithReason, hbind, htype, hcond, hamount, hmin]
          norm_num
          rw [if_neg (by simpa using hge), fixedFailReasonEq]
          simp only [String.append_assoc]
          rfl⟩

/-- C5 witness — Scenario C: a fixed rule requiring `min = 8` unique matches,
with exactly one qualifying instance, awards 0 points with the
"Bedingung nicht erfüllt" explanation. -/
theorem c5_fixed_rule_points_witness :
    (scoreInstanceWithReason instC5 [instC5, instT] [] false none [] {}).1.1 = 0 ∧
    (scoreInstanceWithReason instC5 [instC5, instT] [] false none [] {}).1.2 =
      "0 Punkte (Bedingung nicht erfüllt: 1 Treffer, mind. 8 T (einzigartig))" := by
  have h := c5_fixed_rule_points instC5 [instC5, instT] [] false none [] {} defC5 ruleC5 5
    rfl rfl (by with_unfolding_all decide) rfl
  constructor
  · have h2 := (h.2 condC5 rfl).1
    rw [h2]
    with_unfolding_all decide
  · with_unfolding_all decide

-- ---------------------------------------------------------------------------
-- C6
-- ---------------------------------------------------------------------------

/-- C6: for a non-empty score table the awarded points are
`table[clamp(matchCount - 1, 0, len - 1)]`: every match count at or above the
table length reads the last entry, a match count of 0 reads the first entry,
and the table branch of `scoreInstanceWithReason` awards exactly
`scoreTableIndex` of the match count. -/
theorem c6_table_clamp (points : List Int) (count : Nat) (h : points ≠ []) :
    (scoreTableIndex points count =
      points.getD (Int.toNat (max 0 (min ((points.length : Int) - 1) ((count : Int) - 1)))) 0) ∧
    (points.length ≤ count → scoreTableIndex points count = points.getD (points.length - 1) 0) ∧
    (scoreTableIndex points 0 = points.getD 0 0) ∧
    (∀ (inst : CardInstance) (all : List CardInstance) (pb : List (Box × Placement))
        (am : Bool) (mr : Option MostResolver) (cache : MostCache) (ded : DedupSt)
        (d : CardDef) (r : ScoreJson) (arr : List Int) (c : ConditionJson),
      inst.definition = some d → d.score = some r → r.type.toLower = "table" →
      r.amount = some (.arr arr) → r.condition = some c →
      (scoreInstanceWithReason inst all pb am mr cache ded).1.1 =
        scoreTableIndex arr (countMatches inst c all pb am mr cache ded).1) := by
  have hlen' : 0 < points.length := List.length_pos.mpr h
  have hlen : points.length ≠ 0 := Nat.pos_iff_ne_zero.mp hlen'
  refine ⟨?_, ?_, ?_, ?_⟩
  · simp [scoreTableIndex, Nat.pos_iff_ne_zero.mp hlen']
  · intro hge
    have hidx : Int.toNat (max 0 (min ((points.length : Int) - 1) ((count : Int) - 1))) =
        points.length - 1 := by omega
    simp [scoreTableIndex, Nat.pos_iff_ne_zero.mp hlen', hidx]
  · have hidx : Int.toNat (max 0 (min ((points.length : Int) - 1) ((0 : Int) - 1))) = 0 := by
      omega
    simp only [scoreTableIndex]
    rw [if_neg hlen]
    norm_num at hidx ⊢
  · intro inst all pb am mr cache ded d r arr c hdef hscore htype hamount hcond
    have hbind : inst.definition.bind (·.score) = some r := by rw [hdef]; exact hscore
    have hne : r.type.toLower ≠ "fixed" := by rw [htype]; decide
    have hne2 : r.type.toLower ≠ "multiplication" := by rw [htype]; decide
    simp [scoreInstanceWithReason, hbind, htype, hcond, hamount]

/-- C6 witness: a 3-entry table read at match counts 0 (first entry), 2
(middle) and 7 (clamped to the last entry). -/
theorem c6_table_clamp_witness :
    ([2, 5, 9] : List Int) ≠ [] ∧
    scoreTableIndex [2, 5, 9] 0 = 2 ∧
    scoreTableIndex [2, 5, 9] 2 = 5 ∧
    scoreTableIndex [2, 5, 9] 7 = 9 := by
  refine ⟨by decide, ?_, by decide, ?_⟩
  · have h := (c6_table_clamp [2, 5, 9] 0 (by decide)).2.2.1
    rw [h]; decide
  · have h := (c6_table_clamp [2, 5, 9] 7 (by decide)).2.1 (by decide)
    rw [h]; decide

-- ---------------------------------------------------------------------------
-- C7
-- ---------------------------------------------------------------------------

/-- Anchor instance of the C7 fixtures. -/
def anchorC7 : CardInstance :=
  { box := boxAt 0 "oak:oak", id := "oak", treeSymbol := "oak", definition := none }

/-- Attachment instances of the C7 fixtures. -/
def attC7 (i : Nat) : CardInstance :=
  { box := boxAt i "a:o", id := "a", treeSymbol := "o", definition := none }

/-- A tree with all four sides populated. -/
def fullTreeC7 : Tree :=
  { card := anchorC7, top := [attC7 1], left := [attC7 2], right := [attC7 3],
    bottom := [attC7 4] }

/-- A tree with only three sides populated. -/
def threeSidedC7 : Tree :=
  { card := anchorC7, top := [attC7 1], left := [attC7 2], right := [attC7 3], bottom := [] }

/-- A condition with only `fullTree` set. -/
def condFullC7 : ConditionJson := { fullTree := some true }

/-- A condition with `fullTree` and `most` both set. -/
def condFullMostC7 : ConditionJson := { fullTree := some true, most := some true }

/-- C7 counterexample: a condition with `fullTree` set evaluated on an
instance whose owning tree *is* full nevertheless yields 0 when the condition
also has `most` set and the most gate does not pass (here: no resolver and
`assumeMost = false`) — the `most` part of the condition is *not* ignored,
refuting the claim as stated. -/
theorem c7_fulltree_ignores_most_refuted :
    condFullMostC7.fullTree = some true ∧
    isFullTree fullTreeC7 = true ∧
    (countMatches anchorC7 condFullMostC7 [] [(anchorC7.box, ⟨fullTreeC7, none⟩)]
      false none [] {}).1 = 0 := by
  refine ⟨rfl, by with_unfolding_all decide, by with_unfolding_all decide⟩

/-- C7 (amended): for a condition with `fullTree` set, *provided the `most`
gate passes* (`most` unset, or the resolver / `assumeMost` answer is a win),
`countMatches` returns 1 exactly when the instance's owning tree has all four
attachment lists non-empty and 0 otherwise (0 also with no owning tree),
ignoring the remaining condition fields. -/
theorem c7_fulltree_count (self : CardInstance) (cond : ConditionJson)
    (all : List CardInstance) (pb : List (Box × Placement)) (am : Bool)
    (mr : Option MostResolver) (cache : MostCache) (ded : DedupSt)
    (hft : cond.fullTree = some true)
    (hgate : cond.most = some true →
      (match mr with
       | some r => (r cache self cond).1
       | none => am) = true) :
    (countMatches self cond all pb am mr cache ded).1 =
      (match pb.lookup self.box with
       | some pl => if isFullTree pl.tree then 1 else 0
       | none => 0) := by
  by_cases hm : cond.most = some true
  · have hg := hgate hm
    rcases hmr : mr with _ | rr
    · rw [hmr] at hg
      simp only at hg
      simp [countMatches, hft, hm, hg]
    · rw [hmr] at hg
      simp only at hg
      simp [countMatches, hft, hm, hg]
  · simp [countMatches, hft, hm]

/-- C7 witness: with `most` unset, a full tree yields 1 and a three-sided
tree yields 0. -/
theorem c7_fulltree_count_witness :
    (countMatches anchorC7 condFullC7 [] [(anchorC7.box, ⟨fullTreeC7, none⟩)]
      false none [] {}).1 = 1 ∧
    (countMatches anchorC7 condFullC7 [] [(anchorC7.box, ⟨threeSidedC7, none⟩)]
      false none [] {}).1 = 0 := by
  constructor
  · rw [c7_fulltree_count anchorC7 condFullC7 [] [(anchorC7.box, ⟨fullTreeC7, none⟩)]
      false none [] {} rfl (by intro h; exact absurd h (by decide))]
    with_unfolding_all decide
  · rw [c7_fulltree_count anchorC7 condFullC7 [] [(anchorC7.box, ⟨threeSidedC7, none⟩)]
      false none [] {} rfl (by intro h; exact absurd h (by decide))]
    with_unfolding_all decide

-- ---------------------------------------------------------------------------
-- C3
-- ---------------------------------------------------------------------------

/-- C3: for every `most` key the winner list contains exactly the players
whose count equals the maximum count across all players (so ties make every
tied player a winner), the winner list is empty when the maximum is 0, and a
non-winning player's `most`-gated match count is 0 regardless of every other
condition field. -/
theorem c3_most_winners (prepared : List PreparedPlayer) (key : MostKey)
    (cond : ConditionJson) :
    ((mostWinners prepared key cond).1 =
      (prepared.map (fun p => countForMostKey key p.all cond)).foldl max 0) ∧
    (∀ i : Nat, i < prepared.length →
      ((i : Int) ∈ (mostWinners prepared key cond).2 ↔
        (0 < (mostWinners prepared key cond).1 ∧
          (prepared.map (fun p => countForMostKey key p.all cond)).getD i 0 =
            (mostWinners prepared key cond).1))) ∧
    ((mostWinners prepared key cond).1 = 0 → (mostWinners prepared key cond).2 = []) ∧
    (∀ (self : CardInstance) (c : ConditionJson) (all : List CardInstance)
        (pb : List (Box × Placement)) (am : Bool) (r : MostResolver)
        (cache : MostCache) (ded : DedupSt),
      c.most = some true → (r cache self c).1 = false →
      (countMatches self c all pb am (some r) cache ded).1 = 0) := by
  refine ⟨rfl, ?_, ?_, ?_⟩
  · intro i hi
    set counts := prepared.map (fun p => countForMostKey key p.all cond) with hcounts
    have hclen : counts.length = prepared.length := by simp [hcounts]
    by_cases h0 : counts.foldl max 0 = 0
    · have hmw1 : (mostWinners prepared key cond).1 = 0 := h0
      have hmw2 : (mostWinners prepared key cond).2 = [] := by
        simp [mostWinners, ← hcounts, h0]
      rw [hmw2, hmw1]
      simp
    · have hmw1 : (mostWinners prepared key cond).1 = counts.foldl max 0 := rfl
      have hmw2 : (mostWinners prepared key cond).2 =
          (counts.enum.map (fun p => if p.2 = counts.foldl max 0 then (p.1 : Int) else -1)).filter
            (fun j => decide (0 ≤ j)) := by
        simp only [mostWinners, ← hcounts]
        rw [if_neg (by omega)]
      rw [hmw1, hmw2]
      constructor
      · rintro hmem
        rw [List.mem_filter] at hmem
        obtain ⟨hmem, -⟩ := hmem
        rw [List.mem_map] at hmem
        obtain ⟨⟨j, c0⟩, hj, hf⟩ := hmem
        rw [List.mem_enum_iff_getElem?] at hj
        simp only at hf hj
        by_cases hc : c0 = counts.foldl max 0
        · rw [if_pos hc] at hf
          have hji : j = i := by exact_mod_cast hf
          subst hji
          refine ⟨by omega, ?_⟩
          rw [List.getD_eq_getElem?_getD, hj]
          simpa using hc
        · rw [if_neg hc] at hf
          exfalso
          omega
      · rintro ⟨-, hval⟩
        have hilen : i < counts.length := by omega
        have hgi : counts[i] = counts.foldl max 0 := by
          rw [List.getD_eq_getElem _ _ hilen] at hval
          exact hval
        rw [List.mem_filter]
        constructor
        · rw [List.mem_map]
          refine ⟨(i, counts[i]), ?_, ?_⟩
          · rw [List.mem_enum_iff_getElem?]
            simp [List.getElem?_eq_getElem hilen]
          · simp [hgi]
        · simp
  · intro h0
    have h0' : (prepared.map (fun p => countForMostKey key p.all cond)).foldl max 0 = 0 := h0
    simp only [mostWinners]
    rw [if_pos (by omega)]
  · intro self c all pb am r cache ded hmost hfail
    simp [countMatches, hmost, hfail]

/-- A prepared player whose pool is the given instance list (geometry-free
fixture for the C3 witness). -/
def prepC3 (l : List CardInstance) : PreparedPlayer := ⟨none, l⟩

/-- The all-pass key (no names, no tags, not unique, no symbol). -/
def keyC3 : MostKey := { ids := "", tags := "", unique := false, treeSymbol := none }

/-- C3 witness: with counts 1, 1, 0 both tied players (0 and 1) are winners
at the maximum 1, player 2 is not, and a failing resolver forces a
`most`-gated count of 0. -/
theorem c3_most_winners_witness :
    (mostWinners [prepC3 [attC7 0], prepC3 [attC7 1], prepC3 []] keyC3 {}).1 = 1 ∧
    ((0 : Int) ∈ (mostWinners [prepC3 [attC7 0], prepC3 [attC7 1], prepC3 []] keyC3 {}).2) ∧
    ((1 : Int) ∈ (mostWinners [prepC3 [attC7 0], prepC3 [attC7 1], prepC3 []] keyC3 {}).2) ∧
    (¬ (2 : Int) ∈ (mostWinners [prepC3 [attC7 0], prepC3 [attC7 1], prepC3 []] keyC3 {}).2) ∧
    (countMatches (attC7 0) { most := some true } [] [] false
      (some (fun cache _ _ => (false, cache))) [] {}).1 = 0 := by
  have h := c3_most_winners [prepC3 [attC7 0], prepC3 [attC7 1], prepC3 []] keyC3 {}
  refine ⟨by with_unfolding_all decide, ?_, ?_, ?_, ?_⟩
  · exact (h.2.1 0 (by decide)).mpr (by with_unfolding_all decide)
  · exact (h.2.1 1 (by decide)).mpr (by with_unfolding_all decide)
  · intro hmem
    have := (h.2.1 2 (by decide)).mp hmem
    revert this
    with_unfolding_all decide
  · exact h.2.2.2 (attC7 0) { most := some true } [] [] false
      (fun cache _ _ => (false, cache)) [] {} rfl rfl

-- ---------------------------------------------------------------------------
-- C2
-- ---------------------------------------------------------------------------

/-- The §4.4 pool filter (source `filterCards`) combined with the resolver's
uniqueness handling (distinct non-joker entity ids when `unique`, raw count
otherwise — the source's own expressions from `countMatches` /
`countForMostKey`). -/
def poolFilterCount (self : CardInstance) (pool : List CardInstance)
    (cond : ConditionJson) : Nat :=
  let matching := filterCards self pool cond
  if cond.unique = some true then
    distinctCount ((matching.filter (fun m => (m.definition.bind (·.joker)) = none)).map (·.id))
  else matching.length

/-- C2 counterexample: a pool holding one instance whose joker-type equals
the condition's type label.  `filterCards` matches it through the joker
short-circuit (count 1) but `countForMostKey` has no such short-circuit and
counts 0, refuting the claimed equality. -/
def jokerDefC2 : CardDef := { id := "jk", tags := [], type := some "Other", joker := some ⟨"X"⟩ }

def instJokerC2 : CardInstance :=
  { box := boxAt 0 "jk:oak", id := "jk", treeSymbol := "oak", definition := some jokerDefC2 }

def condC2 : ConditionJson := { type := some "X" }

theorem c2_joker_shortcircuit_refuted :
    countForMostKey (makeMostKey instJokerC2 condC2) [instJokerC2] condC2 = 0 ∧
    poolFilterCount instJokerC2 [instJokerC2] condC2 = 1 := by
  constructor
  · with_unfolding_all decide
  · with_unfolding_all decide

/-- Well-formedness of a condition name/tag list as far as the key
round-trip (join with "," / sort / split on ",") is concerned: absent, or a
non-empty list of non-empty comma-free strings. -/
def goodKeyList : Option (List String) → Prop
  | none => True
  | some l => l ≠ [] ∧ ∀ s ∈ l, s ≠ "" ∧ ',' ∉ s.data

instance : DecidablePred goodKeyList := by
  intro o
  rcases o with _ | l
  · exact .isTrue trivial
  · exact inferInstanceAs (Decidable (_ ∧ _))

theorem splitCommaAux_of_not_mem (cs : List Char) (acc : List Char) (h : ',' ∉ cs) :
    splitCommaAux cs acc = [String.mk (acc.reverse ++ cs)] := by
  induction cs generalizing acc with
  | nil => simp [splitCommaAux]
  | cons c cs ih =>
    have hc : c ≠ ',' := fun hc => h (hc ▸ List.mem_cons_self c cs)
    rw [splitCommaAux, if_neg (fun hc' => hc hc')]
    rw [ih _ (fun hm => h (List.mem_cons_of_mem _ hm))]
    simp

theorem splitCommaAux_append (cs rest acc : List Char) (h : ',' ∉ cs) :
    splitCommaAux (cs ++ ',' :: rest) acc =
      String.mk (acc.reverse ++ cs) :: splitCommaAux rest [] := by
  induction cs generalizing acc with
  | nil => simp [splitCommaAux]
  | cons c cs ih =>
    have hc : c ≠ ',' := fun hc => h (hc ▸ List.mem_cons_self c cs)
    rw [List.cons_append, splitCommaAux, if_neg (fun hc' => hc hc')]
    rw [ih _ (fun hm => h (List.mem_cons_of_mem _ hm))]
    simp

theorem data_ne_nil_of_ne_empty {s : String} (h : s ≠ "") : s.data ≠ [] :=
  fun hd => h (String.ext hd)

theorem joinComma_cons_cons (x y : String) (t : List String) :
    joinComma (x :: y :: t) = x ++ "," ++ joinComma (y :: t) := rfl

theorem joinComma_ne_empty (s : String) (rest : List String) (h : s ≠ "") :
    joinComma (s :: rest) ≠ "" := by
  intro he
  rcases rest with _ | ⟨r, t⟩
  · exact h he
  · rw [joinComma_cons_cons] at he
    have hd := congrArg String.data he
    rw [String.data_append, String.data_append] at hd
    simp at hd

/-- Round trip: splitting the comma-join of non-empty comma-free strings
recovers the list. -/
theorem splitComma_joinComma (l : List String) (hne : l ≠ [])
    (hcf : ∀ s ∈ l, ',' ∉ s.data) : splitComma (joinComma l) = l := by
  induction l with
  | nil => exact absurd rfl hne
  | cons x t ih =>
    rcases t with _ | ⟨y, t'⟩
    · show splitCommaAux (joinComma [x]).data [] = [x]
      rw [show joinComma [x] = x from rfl]
      rw [splitCommaAux_of_not_mem _ _ (hcf x (List.mem_cons_self x []))]
      simp
    · rw [joinComma_cons_cons]
      show splitCommaAux (x ++ "," ++ joinComma (y :: t')).data [] = x :: y :: t'
      rw [String.data_append, String.data_append]
      rw [show (",").data = [','] from rfl]
      rw [List.append_assoc, List.singleton_append]
      rw [splitCommaAux_append _ _ _ (hcf x (List.mem_cons_self x _))]
      rw [show splitCommaAux (joinComma (y :: t')).data [] = splitComma (joinComma (y :: t'))
        from rfl]
      rw [ih (by simp) (fun s hs => hcf s (List.mem_cons_of_mem _ hs))]
      simp

/-- Boolean conjunction rotation (the two filters list their clauses in a
different order). -/
theorem bool_and_rot (a b c d : Bool) : (a && b && c && d) = (b && c && d && a) := by
  cases a <;> cases b <;> cases c <;> cases d <;> rfl

/-- C2 (amended): the cross-player resolver count over a player's whole pool
equals the §4.4 pool-filter count with the same uniqueness handling,
*provided* no pool instance's joker-type equals the condition's type label
(the resolver implements no joker short-circuit) and the condition's name and
tag lists, when present, are non-empty lists of non-empty comma-free strings
(they survive the key's join/sort/split round trip). -/
theorem c2_most_count_matches_pool_filter (self : CardInstance) (pool : List CardInstance)
    (cond : ConditionJson)
    (hjoker : ∀ inst ∈ pool, ∀ t, cond.type = some t → jokerTypeOf inst ≠ some t)
    (hname : goodKeyList cond.name) (htags : goodKeyList cond.tags) :
    countForMostKey (makeMostKey self cond) pool cond = poolFilterCount self pool cond := by
  have hfe : List.filter
      (fun inst =>
        (((match (makeMostKey self cond).treeSymbol with
              | some s => inst.treeSymbol == s
              | none => true) &&
              if (makeMostKey self cond).ids = "" then true
              else (splitComma (makeMostKey self cond).ids).contains inst.id) &&
            if (makeMostKey self cond).tags = "" then true
            else
              (splitComma (makeMostKey self cond).tags).any fun t =>
                match inst.definition with
                | some d => d.tags.contains t
                | none => false) &&
          match cond.type with
          | some t => defTypeOf inst == some t
          | none => true)
      pool = filterCards self pool cond := by
    rw [filterCards]
    apply List.filter_congr
    intro inst hmem
    have hjk : (match cond.type with
        | some t => jokerTypeOf inst == some t
        | none => false) = false := by
      rcases htc : cond.type with _ | t
      · rfl
      · simpa [beq_eq_false_iff_ne] using hjoker inst hmem t htc
    rw [hjk]
    simp only [Bool.false_eq_true, if_false]
    have hkts : (makeMostKey self cond).treeSymbol =
        (if cond.sameTreeSymbol = some true then some self.treeSymbol else none) := rfl
    have hsym : (match (makeMostKey self cond).treeSymbol with
        | some s => inst.treeSymbol == s
        | none => true) =
        (match (if cond.sameTreeSymbol = some true then some self.treeSymbol else none) with
          | some s => s == inst.treeSymbol
          | none => true) := by
      rw [hkts]
      by_cases hsts : cond.sameTreeSymbol = some true
      · rw [if_pos hsts]
        rw [Bool.eq_iff_iff]
        simp only [beq_iff_eq]
        exact eq_comm
      · rw [if_neg hsts]
    have hid : (if (makeMostKey self cond).ids = "" then true
        else (splitComma (makeMostKey self cond).ids).contains inst.id) =
        (match cond.name with
          | some l => l.contains inst.id
          | none => true) := by
      rcases hnm : cond.name with _ | l
      · have hids : (makeMostKey self cond).ids = "" := by
          simp only [makeMostKey, hnm, Option.getD_none, List.filter_nil, List.mergeSort_nil]
          rfl
        rw [hids]
        simp
      · rw [hnm] at hname
        obtain ⟨hlne, hels⟩ := hname
        have hfl : List.filter (fun s => decide ¬(s = "")) l = l :=
          List.filter_eq_self.mpr (fun a ha => by simpa using (hels a ha).1)
        have hkid : (makeMostKey self cond).ids =
            joinComma (l.mergeSort (fun a b => decide (a ≤ b))) := by
          simp only [makeMostKey, hnm, Option.getD_some, hfl]
        set sorted := l.mergeSort (fun a b => decide (a ≤ b)) with hsorted
        have hperm : sorted.Perm l := List.mergeSort_perm l _
        have hsne : sorted ≠ [] := by
          intro h0
          exact hlne (List.length_eq_zero.mp (by rw [← hperm.length_eq, h0]; rfl))
        have hcf : ∀ s ∈ sorted, ',' ∉ s.data :=
          fun s hs => (hels s (hperm.mem_iff.mp hs)).2
        have hkne : (makeMostKey self cond).ids ≠ "" := by
          rw [hkid]
          rcases hs0 : sorted with _ | ⟨s, rest⟩
          · exact absurd hs0 hsne
          · exact joinComma_ne_empty s rest
              ((hels s (hperm.mem_iff.mp (hs0 ▸ List.mem_cons_self s rest))).1)
        rw [if_neg hkne, hkid, splitComma_joinComma sorted hsne hcf]
        rw [Bool.eq_iff_iff]
        simp only [List.contains_iff_exists_mem_beq]
        constructor
        · rintro ⟨x, hx, hpx⟩
          exact ⟨x, hperm.mem_iff.mp hx, hpx⟩
        · rintro ⟨x, hx, hpx⟩
          exact ⟨x, hperm.mem_iff.mpr hx, hpx⟩
    have htg : (if (makeMostKey self cond).tags = "" then true
        else
          (splitComma (makeMostKey self cond).tags).any fun t =>
            match inst.definition with
            | some d => d.tags.contains t
            | none => false) =
        (match cond.tags with
          | some l => matchesAnyTag inst l
          | none => true) := by
      rcases hnm : cond.tags with _ | l
      · have hids : (makeMostKey self cond).tags = "" := by
          simp only [makeMostKey, hnm, Option.getD_none, List.filter_nil, List.mergeSort_nil]
          rfl
        rw [hids]
        simp
      · rw [hnm] at htags
        obtain ⟨hlne, hels⟩ := htags
        have hfl : List.filter (fun s => decide ¬(s = "")) l = l :=
          List.filter_eq_self.mpr (fun a ha => by simpa using (hels a ha).1)
        have hkid : (makeMostKey self cond).tags =
            joinComma (l.mergeSort (fun a b => decide (a ≤ b))) := by
          simp only [makeMostKey, hnm, Option.getD_some, hfl]
        set sorted := l.mergeSort (fun a b => decide (a ≤ b)) with hsorted
        have hperm : sorted.Perm l := List.mergeSort_perm l _
        have hsne : sorted ≠ [] := by
          intro h0
          exact hlne (List.length_eq_zero.mp (by rw [← hperm.length_eq, h0]; rfl))
        have hcf : ∀ s ∈ sorted, ',' ∉ s.data :=
          fun s hs => (hels s (hperm.mem_iff.mp hs)).2
        have hkne : (makeMostKey self cond).tags ≠ "" := by
          rw [hkid]
          rcases hs0 : sorted with _ | ⟨s, rest⟩
          · exact absurd hs0 hsne
          · exact joinComma_ne_empty s rest
              ((hels s (hperm.mem_iff.mp (hs0 ▸ List.mem_cons_self s rest))).1)
        rw [if_neg hkne, hkid, splitComma_joinComma sorted hsne hcf]
        simp only [matchesAnyTag]
        rcases hdf : inst.definition with _ | d
        · rw [Bool.eq_iff_iff]
          simp [List.any_eq_true]
        · rw [Bool.eq_iff_iff]
          simp only [List.any_eq_true]
          constructor
          · rintro ⟨x, hx, hpx⟩
            exact ⟨x, hperm.mem_iff.mp hx, hpx⟩
          · rintro ⟨x, hx, hpx⟩
            exact ⟨x, hperm.mem_iff.mpr hx, hpx⟩
    rw [hsym, hid, htg]
    exact bool_and_rot _ _ _ _
  rw [countForMostKey, poolFilterCount, hfe]
  have hu : (makeMostKey self cond).unique = decide (cond.unique = some true) := rfl
  rw [hu]
  by_cases hq : cond.unique = some true
  · simp [hq]
  · simp [hq]


/-- Condition used by the C2 witness: a one-element name list. -/
def condC2W : ConditionJson := { name := some ["t1"] }

/-- C2 witness: on a concrete pool satisfying the amended hypotheses the two
counts agree (both 1). -/
theorem c2_most_count_matches_pool_filter_witness :
    countForMostKey (makeMostKey instT condC2W) [instT] condC2W =
      poolFilterCount instT [instT] condC2W ∧
    poolFilterCount instT [instT] condC2W = 1 := by
  refine ⟨c2_most_count_matches_pool_filter instT [instT] condC2W
    (fun inst hmem t ht => Option.noConfusion ht)
    (by constructor
        · intro h
          cases h
        · intro s hs
          refine ⟨?_, ?_⟩
          · simp at hs
            subst hs
            decide
          · simp at hs
            subst hs
            decide)
    trivial, ?_⟩
  with_unfolding_all decide


-- ---------------------------------------------------------------------------
-- C10
-- ---------------------------------------------------------------------------

/-- The result of scoring one player carries the player's name in every
branch. -/
theorem scoreOnePlayer_name (prepared : List PreparedPlayer) (pi : Nat) (pn : String)
    (p : PreparedPlayer) (cache : MostCache) :
    (scoreOnePlayer prepared pi pn p cache).1.name = pn := by
  rcases hf : p.forest with _ | f
  · simp [scoreOnePlayer, hf]
  · by_cases h0 : p.all.length = 0
    · simp [scoreOnePlayer, hf, h0]
    · simp [scoreOnePlayer, hf, h0]

/-- A player prepared with no forest is scored to the zero result, whatever
the incoming cache. -/
theorem scoreOnePlayer_forest_none (prepared : List PreparedPlayer) (pi : Nat)
    (pn : String) (p : PreparedPlayer) (cache : MostCache) (hf : p.forest = none) :
    scoreOnePlayer prepared pi pn p cache = (⟨pn, 0, []⟩, cache) := by
  simp [scoreOnePlayer, hf]

/-- Phase 3 produces exactly one result per prepared player. -/
theorem scorePlayersGo_length (prepared : List PreparedPlayer) (players : List PlayerInput) :
    ∀ (rest : List PreparedPlayer) (i : Nat) (cache : MostCache),
      (scorePlayersGo prepared players i rest cache).1.length = rest.length := by
  intro rest
  induction rest with
  | nil => intro i cache; rfl
  | cons p rest ih =>
    intro i cache
    simp only [scorePlayersGo, List.length_cons]
    rw [ih]

/-- Phase 3 results carry the input players' names positionally, and a
prepared player with no forest yields the zero result. -/
theorem scorePlayersGo_getD (prepared : List PreparedPlayer) (players : List PlayerInput) :
    ∀ (rest : List PreparedPlayer) (i : Nat) (cache : MostCache) (j : Nat),
      j < rest.length →
      (((scorePlayersGo prepared players i rest cache).1.getD j default).name =
        (players.getD (i + j) default).name) ∧
      ((rest.getD j default).forest = none →
        (scorePlayersGo prepared players i rest cache).1.getD j default =
          { name := (players.getD (i + j) default).name, totalScore := 0, cardDetails := [] }) := by
  intro rest
  induction rest with
  | nil => intro i cache j hj; exact absurd hj (by simp)
  | cons p rest ih =>
    intro i cache j hj
    rcases j with _ | j
    · constructor
      · simpa [scorePlayersGo] using
          scoreOnePlayer_name prepared i (players.getD i default).name p cache
      · intro hf
        simp only [List.getD_cons_zero] at hf
        simp only [scorePlayersGo, List.getD_cons_zero,
          scoreOnePlayer_forest_none prepared i _ p cache hf]
        rfl
    · have hj' : j < rest.length := by simpa using hj
      have h := ih (i + 1)
        ((scoreOnePlayer prepared i (players.getD i default).name p cache).2) j hj'
      constructor
      · simpa [scorePlayersGo, Nat.add_assoc, Nat.add_comm 1 j] using h.1
      · intro hf
        simp only [List.getD_cons_succ] at hf
        simpa [scorePlayersGo, Nat.add_assoc, Nat.add_comm 1 j] using h.2 hf

/-- C10: `score` returns exactly one result per player, in input order, with
each result's name equal to the corresponding player's name; a player with an
empty card collection receives totalScore 0 and no card details. -/
theorem c10_per_player_results (cards : CardsJson) (ps : List PlayerInput) :
    ((score cards ps).length = ps.length) ∧
    (∀ i, i < ps.length →
      (((score cards ps).getD i default).name = (ps.getD i default).name) ∧
      ((ps.getD i default).cards = [] →
        (score cards ps).getD i default =
          { name := (ps.getD i default).name, totalScore := 0, cardDetails := [] })) := by
  constructor
  · simp only [score]
    rw [scorePlayersGo_length]
    simp
  · intro i hi
    have hil : i < (ps.map (prepare cards)).length := by simpa using hi
    have h := scorePlayersGo_getD (ps.map (prepare cards)) ps (ps.map (prepare cards))
      0 [] i hil
    constructor
    · simpa [score] using h.1
    · intro hempty
      have hprep : ((ps.map (prepare cards)).getD i default).forest = none := by
        rw [List.getD_eq_getElem _ _ hil, List.getElem_map]
        have hempty' : ps[i].cards = [] := by
          rw [List.getD_eq_getElem _ _ hi] at hempty
          exact hempty
        simp [prepare, hempty']
      simpa [score] using h.2 hprep

/-- C10 witness: two players, the second with no cards. -/
theorem c10_per_player_results_witness :
    (score cfgB (playersB ++ [{ name := "Bob", cards := [] }])).length = 2 ∧
    ((score cfgB (playersB ++ [{ name := "Bob", cards := [] }])).getD 1 default) =
      { name := "Bob", totalScore := 0, cardDetails := [] } := by
  have h := c10_per_player_results cfgB (playersB ++ [{ name := "Bob", cards := [] }])
  constructor
  · rw [h.1]
    rfl
  · have h2 := (h.2 1 (by decide)).2 (by decide)
    rw [h2]
    rfl


-- ---------------------------------------------------------------------------
-- C8
-- ---------------------------------------------------------------------------

/-- All instances stored in one `SideLists` value. -/
def slFlat (sl : SideLists) : List CardInstance := sl.top ++ sl.bottom ++ sl.left ++ sl.right

theorem stFlat_eq_map (st : List SideLists) : stFlat st = (st.map slFlat).flatten := rfl

theorem slFlat_empty : slFlat {} = [] := rfl

/-- Pushing one card onto one side adds exactly that card to the flattened
side lists. -/
theorem count_slFlat_put_push (sl : SideLists) (side : Side) (c x : CardInstance) :
    List.count x (slFlat (sl.put side (sl.get side ++ [c]))) =
      List.count x (slFlat sl) + List.count x [c] := by
  cases side <;>
    simp [slFlat, SideLists.put, SideLists.get, List.count_append, List.count_cons,
      List.count_singleton] <;> omega

/-- Replacing one side list changes the flattened counts by the difference of
the old and new lists. -/
theorem count_slFlat_put (sl : SideLists) (side : Side) (l : List CardInstance)
    (x : CardInstance) :
    List.count x (slFlat (sl.put side l)) + List.count x (sl.get side) =
      List.count x (slFlat sl) + List.count x l := by
  cases side <;>
    simp [slFlat, SideLists.put, SideLists.get, List.count_append, List.count_cons,
      List.count_singleton] <;> omega

theorem stFlat_cons (s : SideLists) (ss : List SideLists) :
    stFlat (s :: ss) = slFlat s ++ stFlat ss := rfl

/-- Replacing the `ti`-th entry of the working state exchanges that entry's
flattened counts. -/
theorem count_stFlat_set : ∀ (st : List SideLists) (ti : Nat) (sl' : SideLists),
    ti < st.length → ∀ (x : CardInstance),
    List.count x (stFlat (st.set ti sl')) + List.count x (slFlat (st.getD ti {})) =
      List.count x (stFlat st) + List.count x (slFlat sl')
  | [], ti, sl', hti, x => absurd hti (by simp)
  | s :: ss, 0, sl', hti, x => by
    simp [stFlat_cons, List.count_append]
    omega
  | s :: ss, ti + 1, sl', hti, x => by
    have ih := count_stFlat_set ss ti sl' (by simpa using hti) x
    simp only [List.set_cons_succ, stFlat_cons, List.count_append, List.getD_cons_succ]
    omega

theorem putSide_length (st : List SideLists) (ti : Nat) (side : Side)
    (l : List CardInstance) : (putSide st ti side l).length = st.length := by
  simp [putSide]

/-- The count bookkeeping of `putSide`. -/
theorem count_putSide (st : List SideLists) (ti : Nat) (side : Side)
    (l : List CardInstance) (hti : ti < st.length) (x : CardInstance) :
    List.count x (stFlat (putSide st ti side l)) + List.count x (getSide st ti side) =
      List.count x (stFlat st) + List.count x l := by
  have h := count_stFlat_set st ti ((st.getD ti {}).put side l) hti x
  have h2 := count_slFlat_put (st.getD ti {}) side l x
  have hb : getSide st ti side = (st.getD ti {}).get side := rfl
  have hp : stFlat (putSide st ti side l) =
      stFlat (st.set ti ((st.getD ti {}).put side l)) := rfl
  rw [hb, hp]
  omega

/-- The count bookkeeping of `pushSide`. -/
theorem count_pushSide (st : List SideLists) (ti : Nat) (side : Side)
    (c : CardInstance) (hti : ti < st.length) (x : CardInstance) :
    List.count x (stFlat (pushSide st ti side c)) =
      List.count x (stFlat st) + List.count x [c] := by
  have h := count_putSide st ti side (getSide st ti side ++ [c]) hti x
  have hp : stFlat (pushSide st ti side c) =
      stFlat (putSide st ti side (getSide st ti side ++ [c])) := rfl
  rw [hp]
  rw [List.count_append] at h
  omega

/-- A successful phase-1 choice names an anchor index inside `treeCards`. -/
theorem phase1Choice_lt (treeCards : List CardInstance) (card : CardInstance)
    (ti : Nat) (cand : PlacementCandidate)
    (h : phase1Choice treeCards card = some (ti, cand)) : ti < treeCards.length := by
  rw [phase1Choice] at h
  refine List.foldlRecOn
    (motive := fun b => ∀ ti' cand', b = some (ti', cand') → ti' < treeCards.length)
    treeCards.enum _ none ?_ ?_ ti cand h
  · intro ti' cand' h'
    cases h'
  · intro b hb p hp ti' cand' h'
    have hplt : p.1 < treeCards.length := by
      rcases p with ⟨i, tree⟩
      have := List.mem_enumFrom hp
      simpa using this.2.1
    rcases hbp : bestPlacementCandidate card p.2 with _ | cand''
    · rw [hbp] at h'
      exact hb ti' cand' h'
    · rw [hbp] at h'
      rcases hbb : b with _ | bic
      · rw [hbb] at h'
        cases h'
        exact hplt
      · rw [hbb] at h'
        simp only at h'
        split at h'
        · cases h'
          exact hplt
        · exact hb ti' cand' (hbb ▸ h')

theorem phase1_cons (treeCards : List CardInstance) (c : CardInstance)
    (cs : List CardInstance) (st : List SideLists) :
    phase1 treeCards (c :: cs) st =
      phase1 treeCards cs
        (match phase1Choice treeCards c with
         | none => st
         | some (ti, cand) => pushSide st ti cand.side c) := rfl

theorem phase1_length (treeCards cardInsts : List CardInstance) (st : List SideLists) :
    (phase1 treeCards cardInsts st).length = st.length := by
  induction cardInsts generalizing st with
  | nil => rfl
  | cons c cs ih =>
    rw [phase1_cons]
    rcases h : phase1Choice treeCards c with _ | p
    · simp only [h]
      exact ih st
    · rcases p with ⟨ti, cand⟩
      simp only [h]
      rw [ih]
      simp [pushSide, putSide]

/-- Phase 1 adds each processed card at most once to the side lists. -/
theorem count_phase1 (treeCards cardInsts : List CardInstance) (st : List SideLists)
    (hlen : st.length = treeCards.length) (x : CardInstance) :
    List.count x (stFlat (phase1 treeCards cardInsts st)) ≤
      List.count x (stFlat st) + List.count x cardInsts := by
  induction cardInsts generalizing st with
  | nil => simp [phase1]
  | cons c cs ih =>
    rw [phase1_cons]
    rcases h : phase1Choice treeCards c with _ | p
    · simp only [h]
      have := ih st hlen
      rw [List.count_cons]
      omega
    · rcases p with ⟨ti, cand⟩
      simp only [h]
      have hti : ti < st.length := by
        rw [hlen]
        exact phase1Choice_lt treeCards c ti cand h
      have hstep := count_pushSide st ti cand.side c hti x
      have hrec := ih (pushSide st ti cand.side c) (by simp [pushSide, putSide, hlen])
      rw [List.count_cons]
      rw [List.count_singleton] at hstep
      omega

/-- One attachment round moves cards between `remaining` and `attached`
without creating or destroying occurrences. -/
theorem count_attachRound (next : List CardInstance) :
    ∀ (attached remaining : List CardInstance) (x : CardInstance),
      List.count x (attachRound attached remaining next).1 +
        List.count x (attachRound attached remaining next).2 =
      List.count x attached + List.count x remaining := by
  induction next with
  | nil => intro attached remaining x; rfl
  | cons c cs ih =>
    intro attached remaining x
    have hstep : attachRound attached remaining (c :: cs) =
        attachRound (if c ∈ remaining then attached ++ [c] else attached)
          (if c ∈ remaining then remaining.erase c else remaining) cs := by
      rw [attachRound, List.foldl_cons, ← attachRound]
      by_cases hc : c ∈ remaining
      · simp [hc]
      · simp [hc]
    rw [hstep]
    by_cases hc : c ∈ remaining
    · rw [if_pos hc, if_pos hc]
      have := ih (attached ++ [c]) (remaining.erase c) x
      rw [this, List.count_append, List.count_singleton, List.count_erase]
      have hcount : (c == x) = true → 1 ≤ List.count x remaining := by
        intro hbeq
        have : c = x := by simpa using hbeq
        subst this
        exact List.count_pos_iff.mpr hc
      by_cases hbeq : (c == x) = true
      · have := hcount hbeq
        simp [hbeq]
        omega
      · simp [hbeq]
    · rw [if_neg hc, if_neg hc]
      exact ih attached remaining x

/-- The fuelled chain-expansion loop conserves occurrences. -/
theorem count_expandSideChainGo (treeBox : Box) (side : Side) :
    ∀ (fuel : Nat) (attached remaining : List CardInstance) (x : CardInstance),
      List.count x (expandSideChainGo treeBox side fuel attached remaining).1 +
        List.count x (expandSideChainGo treeBox side fuel attached remaining).2 =
      List.count x attached + List.count x remaining := by
  intro fuel
  induction fuel with
  | zero => intro attached remaining x; rfl
  | succ fuel ih =>
    intro attached remaining x
    rw [expandSideChainGo]
    set next := (treeBox :: attached.map (·.box)).foldl
      (fun acc a => dedupAppend acc (pickDirectlyAdjacent a remaining side)) [] with hnext
    by_cases hn : next = []
    · rw [if_pos hn]
    · rw [if_neg hn]
      rw [ih]
      exact count_attachRound next attached remaining x

/-- `expandSideChain` conserves occurrences. -/
theorem count_expandSideChain (treeBox : Box) (side : Side)
    (attached remaining : List CardInstance) (x : CardInstance) :
    List.count x (expandSideChain treeBox side attached remaining).1 +
      List.count x (expandSideChain treeBox side attached remaining).2 =
    List.count x attached + List.count x remaining :=
  count_expandSideChainGo treeBox side _ attached remaining x

/-- One phase-2 side step (expand then write back) conserves the combined
state/remaining occurrence counts. -/
theorem count_phase2_side (tb : Box) (side : Side) (st : List SideLists) (ti : Nat)
    (rem : List CardInstance) (hti : ti < st.length) (x : CardInstance) :
    List.count x
        (stFlat (putSide st ti side (expandSideChain tb side (getSide st ti side) rem).1)) +
      List.count x (expandSideChain tb side (getSide st ti side) rem).2 =
    List.count x (stFlat st) + List.count x rem := by
  have h1 := count_putSide st ti side (expandSideChain tb side (getSide st ti side) rem).1 hti x
  have h2 := count_expandSideChain tb side (getSide st ti side) rem x
  omega

/-- Phase 2 conserves the combined state/remaining occurrence counts. -/
theorem count_phase2 (treeCards : List CardInstance) (st : List SideLists)
    (remaining : List CardInstance) (hlen : st.length = treeCards.length)
    (x : CardInstance) :
    List.count x (stFlat (phase2 treeCards st remaining).1) +
        List.count x (phase2 treeCards st remaining).2 =
      List.count x (stFlat st) + List.count x remaining ∧
    (phase2 treeCards st remaining).1.length = treeCards.length := by
  rw [phase2]
  refine List.foldlRecOn treeCards.enum _ (st, remaining)
    (motive := fun acc =>
      List.count x (stFlat acc.1) + List.count x acc.2 =
          List.count x (stFlat st) + List.count x remaining ∧
        acc.1.length = treeCards.length) ⟨rfl, hlen⟩ ?_
  intro acc hacc p hp
  rcases acc with ⟨ast, arem⟩
  obtain ⟨hcnt, hlen'⟩ := hacc
  simp only at hcnt hlen'
  rcases p with ⟨ti, treeCard⟩
  have hti : ti < treeCards.length := by
    have := List.mem_enumFrom hp
    simpa using this.2.1
  simp only
  have h1 := count_phase2_side treeCard.box .top ast ti arem (by omega) x
  set st1 := putSide ast ti .top (expandSideChain treeCard.box .top (getSide ast ti .top) arem).1
    with hst1
  set rem1 := (expandSideChain treeCard.box .top (getSide ast ti .top) arem).2 with hrem1
  have hl1 : st1.length = treeCards.length := by rw [hst1, putSide_length]; omega
  have h2 := count_phase2_side treeCard.box .bottom st1 ti rem1 (by omega) x
  set st2 := putSide st1 ti .bottom
    (expandSideChain treeCard.box .bottom (getSide st1 ti .bottom) rem1).1 with hst2
  set rem2 := (expandSideChain treeCard.box .bottom (getSide st1 ti .bottom) rem1).2 with hrem2
  have hl2 : st2.length = treeCards.length := by rw [hst2, putSide_length]; omega
  have h3 := count_phase2_side treeCard.box .left st2 ti rem2 (by omega) x
  set st3 := putSide st2 ti .left
    (expandSideChain treeCard.box .left (getSide st2 ti .left) rem2).1 with hst3
  set rem3 := (expandSideChain treeCard.box .left (getSide st2 ti .left) rem2).2 with hrem3
  have hl3 : st3.length = treeCards.length := by rw [hst3, putSide_length]; omega
  have h4 := count_phase2_side treeCard.box .right st3 ti rem3 (by omega) x
  refine ⟨by omega, ?_⟩
  rw [putSide_length]
  omega


/-- The attachment lists of one built tree, in output order. -/
def gAtts (sl : SideLists) : List CardInstance := sl.top ++ sl.left ++ sl.right ++ sl.bottom

theorem count_gAtts_eq_slFlat (sl : SideLists) (x : CardInstance) :
    List.count x (gAtts sl) = List.count x (slFlat sl) := by
  simp [gAtts, slFlat, List.count_append]
  omega

/-- Reading the working state positionally over the anchors' `enum` is the
same as mapping over the state (state and anchor lists have equal length). -/
theorem enum_map_getD {α : Type} (tc : List CardInstance) (st : List SideLists)
    (f : SideLists → α) (hlen : st.length = tc.length) :
    tc.enum.map (fun p => f (st.getD p.1 {})) = st.map f := by
  have h1 : tc.enum.map (fun p => f (st.getD p.1 {})) =
      (tc.enum.map Prod.fst).map (fun i => f (st.getD i {})) := by
    rw [List.map_map]
    rfl
  rw [h1, List.enum_map_fst]
  apply List.ext_getElem
  · simp [hlen]
  · intro n h1 h2
    rw [List.getElem_map, List.getElem_map, List.getElem_range]
    rw [List.getD_eq_getElem st {} (by simpa using h2)]

/-- The flattened attachments of the built trees have the same occurrence
counts as the flattened working state. -/
theorem count_trees_flatten (tc : List CardInstance) (st : List SideLists)
    (hlen : st.length = tc.length) (x : CardInstance) :
    List.count x
      (((tc.enum.map (fun p =>
          ({ card := p.2, top := (st.getD p.1 {}).top, left := (st.getD p.1 {}).left,
             right := (st.getD p.1 {}).right, bottom := (st.getD p.1 {}).bottom } : Tree))).map
        (fun t => t.top ++ t.left ++ t.right ++ t.bottom)).flatten) =
    List.count x (stFlat st) := by
  rw [List.map_map]
  show List.count x ((tc.enum.map (fun p => gAtts (st.getD p.1 {}))).flatten) = _
  rw [enum_map_getD tc st gAtts hlen]
  rw [stFlat_eq_map, List.count_flatten, List.count_flatten, List.map_map, List.map_map]
  congr 1
  exact List.map_congr_left (fun sl _ => count_gAtts_eq_slFlat sl x)

/-- A parsed instance keeps its box. -/
theorem parseCardInstance_box (b : Box) (d : List (String × CardDef)) (i : CardInstance)
    (h : parseCardInstance b d = some i) : i.box = b := by
  simp only [parseCardInstance] at h
  split at h
  · cases h
  · cases h
    rfl

/-- The boxes of the parsed instances form a sublist of the input boxes. -/
theorem filterMap_parse_boxes_sublist (d : List (String × CardDef)) :
    ∀ l : List Box, ((l.filterMap (fun b => parseCardInstance b d)).map (·.box)).Sublist l := by
  intro l
  induction l with
  | nil => simp
  | cons b bs ih =>
    rw [List.filterMap_cons]
    rcases hp : parseCardInstance b d with _ | i
    · exact ih.cons b
    · rw [List.map_cons, parseCardInstance_box b d i hp]
      exact ih.cons₂ b

/-- Parsed instances from distinct boxes are distinct. -/
theorem filterMap_parse_nodup (d : List (String × CardDef)) (l : List Box)
    (h : l.Nodup) : (l.filterMap (fun b => parseCardInstance b d)).Nodup :=
  List.Nodup.of_map (·.box) (((filterMap_parse_boxes_sublist d l)).nodup h)

theorem stFlat_init (tc : List CardInstance) :
    stFlat (tc.map (fun _ => ({} : SideLists))) = [] := by
  induction tc with
  | nil => rfl
  | cons t ts ih => simpa [stFlat_cons, slFlat_empty] using ih

/-- C8: in every Forest produced by the layout builder from boxes with
distinct identities, each CardInstance occurs as an attachment in at most one
Tree, on at most one side, at most once (the flattened attachment lists over
all trees contain no duplicate). -/
theorem c8_attachment_uniqueness (boxes : List Box) (cards : CardsJson)
    (h : (boxes.map Box.idx).Nodup) :
    (((buildForest boxes cards).trees.map
      (fun t => t.top ++ t.left ++ t.right ++ t.bottom)).flatten).Nodup := by
  have hboxes : boxes.Nodup := List.Nodup.of_map _ h
  rw [List.nodup_iff_count_le_one]
  intro x
  simp only [buildForest]
  set defById := cards.cards.map (fun c => (c.id, c)) with hdefById
  set treeIds := (cards.cards.filter (fun c => c.tags.contains "Tree")).map (·.id)
    with htreeIds
  set tc := (boxes.filter (fun b =>
    match boxEntityId b with
    | some i => treeIds.contains i
    | none => false)).filterMap (fun b => parseCardInstance b defById) with htc
  set ci := (boxes.filter (fun b =>
    match boxEntityId b with
    | some i => !(treeIds.contains i)
    | none => true)).filterMap (fun b => parseCardInstance b defById) with hci
  set placed := phase1 tc ci (tc.map (fun _ => ({} : SideLists))) with hplaced
  set rem := ci.filter (fun c => c ∉ stFlat placed) with hrem
  set ex := phase2 tc placed rem with hex
  have hciN : ci.Nodup :=
    filterMap_parse_nodup defById _ ((List.filter_sublist boxes).nodup hboxes)
  have hplacedLen : placed.length = tc.length := by
    rw [hplaced, phase1_length]
    simp
  have hphase2 := count_phase2 tc placed rem hplacedLen x
  rw [← hex] at hphase2
  obtain ⟨hcons, hexLen⟩ := hphase2
  rw [count_trees_flatten tc ex.1 hexLen x]
  have hinit : List.count x (stFlat (tc.map (fun _ => ({} : SideLists)))) = 0 := by
    rw [stFlat_init]
    rfl
  have hph1 : List.count x (stFlat placed) ≤ List.count x ci := by
    have := count_phase1 tc ci (tc.map (fun _ => ({} : SideLists))) (by simp) x
    rw [← hplaced] at this
    omega
  have hcic : List.count x ci ≤ 1 := List.nodup_iff_count_le_one.mp hciN x
  by_cases hx : x ∈ rem
  · have hx2 : x ∉ stFlat placed := by
      have := (List.mem_filter.mp (hrem ▸ hx)).2
      simpa using this
    have h1 : List.count x (stFlat placed) = 0 := List.count_eq_zero_of_not_mem hx2
    have h2 : List.count x rem ≤ 1 := by
      have := (List.filter_sublist (p := fun c => decide (c ∉ stFlat placed)) ci).count_le x
      rw [← hrem] at this
      omega
    omega
  · have h2 : List.count x rem = 0 := List.count_eq_zero_of_not_mem hx
    omega

/-- The boxes of the Scenario B layout, as `prepare` would build them. -/
def boxesB : List Box :=
  [{ idx := 0, x1 := 0.1, y1 := 0.4, x2 := 0.3, y2 := 0.7, cx := 0.2, cy := 0.55,
     w := 0.2, h := 0.3, clsName := "oak:oak" },
   { idx := 1, x1 := 0.31, y1 := 0.4, x2 := 0.5, y2 := 0.7, cx := 0.405, cy := 0.55,
     w := 0.19, h := 0.3, clsName := "wolf:oak" },
   { idx := 2, x1 := 0.6, y1 := 0.4, x2 := 0.8, y2 := 0.7, cx := 0.7, cy := 0.55,
     w := 0.2, h := 0.3, clsName := "birch:birch" },
   { idx := 3, x1 := 0.81, y1 := 0.4, x2 := 0.99, y2 := 0.7, cx := 0.9, cy := 0.55,
     w := 0.18, h := 0.3, clsName := "wolf:birch" }]

/-- C8 witness: the Scenario B forest (two anchors, one attachment each) has
duplicate-free attachments. -/
theorem c8_attachment_uniqueness_witness :
    (boxesB.map Box.idx).Nodup ∧
    (((buildForest boxesB cfgB).trees.map
      (fun t => t.top ++ t.left ++ t.right ++ t.bottom)).flatten).Nodup :=
  ⟨by decide, c8_attachment_uniqueness boxesB cfgB (by decide)⟩


end Mischwald